import Mathlib

/-!
PhishGuard phishing detection engine (`phishing-detector.js`).

A shallow embedding of the `PhishingDetector` class and proofs about it.

Conventions of the embedding:

* a JavaScript string is a `List Char`, one element per UTF-16 code unit
  (`length`, `charAt`, `includes`, `endsWith` all work on code units);
* a JavaScript number is an exact rational; the only place where the source
  can leave the rationals is the division `0 / 0` of `calculateRiskScore` on an
  empty list, whose `NaN` is the value `none` of `Option ℚ`;
* a thrown exception / rejected promise is the `error` case of `Except`.
-/

namespace PhishingDetector

/-- JavaScript string: the list of its code units. -/
abbrev JSString := List Char

/-! ## String similarity primitives -/

/-- Inner loop of `levenshteinDistance` (`for j = 1 .. str1.length`) for one row `i`.
`c2` is `str2.charAt(i - 1)`, the first list is what is left of `str1` from position
`j - 1` on, the second list is row `i - 1` of the matrix from column `j - 1` on, and
`left` is `matrix[i][j - 1]`. The result is the cells `matrix[i][j ..]`. -/
def rowCells (c2 : Char) : JSString → List Nat → Nat → List Nat
  | [], _, _ => []
  | c1 :: rest, diag :: up :: prev, left =>
      let cell := if c2 = c1 then diag else min (diag + 1) (min (left + 1) (up + 1))
      cell :: rowCells c2 rest (up :: prev) cell
  | _ :: _, _, _ => []

/-- Row `0` of the matrix: `matrix[0][j] = j` for `j = 0 .. str1.length`. -/
def firstRow (str1 : JSString) : List Nat := List.range (str1.length + 1)

/-- Row `i ≥ 1` of the matrix: it starts as `[i]` and the inner loop appends the
other cells, reading row `i - 1`. -/
def nextRow (str1 : JSString) (prevRow : List Nat) (i : Nat) (c2 : Char) : List Nat :=
  i :: rowCells c2 str1 prevRow i

/-- Outer loop of `levenshteinDistance` (`for i = 1 .. str2.length`): the rows
`i, i + 1, ..` of the matrix, given what is left of `str2` and row `i - 1`. -/
def fillRows (str1 : JSString) : JSString → Nat → List Nat → List (List Nat)
  | [], _, _ => []
  | c2 :: rest, i, prevRow =>
      let row := nextRow str1 prevRow i c2
      row :: fillRows str1 rest (i + 1) row

/-- The whole matrix built by `levenshteinDistance`, rows `0 .. str2.length`. -/
def levenshteinMatrix (str1 str2 : JSString) : List (List Nat) :=
  firstRow str1 :: fillRows str1 str2 1 (firstRow str1)

/-- Method `levenshteinDistance(str1, str2)`: the cell `matrix[str2.length][str1.length]`. -/
def levenshteinDistance (str1 str2 : JSString) : Nat :=
  ((levenshteinMatrix str1 str2).getD str2.length []).getD str1.length 0

/-- Method `calculateStringSimilarity(str1, str2)`. -/
def calculateStringSimilarity (str1 str2 : JSString) : ℚ :=
  let longer := if str1.length > str2.length then str1 else str2
  let shorter := if str1.length > str2.length then str2 else str1
  if longer.length = 0 then 1
  else
    let editDistance := levenshteinDistance longer shorter
    ((longer.length : ℚ) - (editDistance : ℚ)) / (longer.length : ℚ)

/-- The call `s.toLowerCase()`; on the ASCII text that the URL parser produces for
`hostname` and `href` this is the lower-casing of the letters `A .. Z`. -/
def toLowerCase (s : JSString) : JSString := s.map Char.toLower

/-- The call `s.includes(sub)`: `sub` occurs in `s` as a contiguous substring. -/
def includes (s sub : JSString) : Bool := s.tails.any (fun t => sub.isPrefixOf t)

/-- The call `s.endsWith(suffix)`. -/
def endsWith (s suffix : JSString) : Bool := suffix.isSuffixOf s

/-- The pieces of `s.split(sep)` for a one-character separator, as the pair of the first
piece and the list of the later ones. -/
def splitAux (sep : Char) : JSString → JSString × List JSString
  | [] => ([], [])
  | c :: rest =>
      let r := splitAux sep rest
      if c = sep then ([], r.1 :: r.2) else (c :: r.1, r.2)

/-- The call `s.split(sep)` for a one-character separator: the result is never empty,
`"".split(".")` is `[""]`. -/
def split (s : JSString) (sep : Char) : List JSString :=
  let r := splitAux sep s
  r.1 :: r.2

/-- The call `s.replace(new RegExp(original, 'g'), substitute)` for a one-letter pattern and a
one-character replacement. -/
def replaceAll (s : JSString) (original substitute : Char) : JSString :=
  s.map (fun c => if c = original then substitute else c)

/-- The `substitutions` table of `isCharacterSubstitution`, in `Object.entries` order. -/
def substitutions : List (Char × Char) :=
  [('o', '0'), ('i', '1'), ('l', '1'), ('e', '3'), ('a', '@'), ('s', '$'), ('g', '9')]

/-- The loop of `isCharacterSubstitution` that builds `substitutedLegit`. -/
def substituteLegit (legitimate : JSString) : JSString :=
  substitutions.foldl (fun acc entry => replaceAll acc entry.1 entry.2) legitimate

/-- Method `isCharacterSubstitution(suspicious, legitimate)`. -/
def isCharacterSubstitution (suspicious legitimate : JSString) : Bool :=
  let substitutedLegit := substituteLegit legitimate
  includes suspicious substitutedLegit ||
    decide (calculateStringSimilarity suspicious substitutedLegit > 0.8)

/-- Method `containsSuspiciousCharacters(hostname)`: a code unit in the Cyrillic, Latin
Extended-A or Latin Extended Additional block. -/
def containsSuspiciousCharacters (hostname : JSString) : Bool :=
  [(0x0400, 0x04FF), (0x0100, 0x017F), (0x1E00, 0x1EFF)].any
    (fun range => hostname.any (fun c => decide (range.1 ≤ c.toNat ∧ c.toNat ≤ range.2)))

/-- Method `isCommonWord(word)`. -/
def isCommonWord (word : JSString) : Bool :=
  let commonWords := ["about", "other", "which", "their", "would", "there", "could", "first",
    "after", "these", "where", "being", "every", "great", "might", "shall",
    "still", "those", "while", "should", "never", "before", "another", "through"]
  commonWords.any (fun w => w.toList == toLowerCase word)

/-! ## Aggregation and classification -/

/-- One detector result `{ type, risk, details }`; `details` is `none` for `null`. -/
structure CheckResult where
  type : String
  risk : ℚ
  details : Option String

/-- The three accumulators of the loop of `calculateRiskScore`. -/
structure RiskTotals where
  totalRisk : ℚ
  maxRisk : ℚ
  criticalIssues : Nat

/-- One iteration of the loop `for (const check of checks)`. -/
def accumulate (acc : RiskTotals) (check : CheckResult) : RiskTotals :=
  { totalRisk := acc.totalRisk + check.risk
    maxRisk := max acc.maxRisk check.risk
    criticalIssues := if check.risk ≥ 80 then acc.criticalIssues + 1 else acc.criticalIssues }

/-- Method `calculateRiskScore(checks)`; `none` is the `NaN` of `0 / 0` on an empty list. -/
def calculateRiskScore (checks : List CheckResult) : Option ℚ :=
  let acc := checks.foldl accumulate ⟨0, 0, 0⟩
  if checks.length = 0 then none
  else
    let averageRisk := acc.totalRisk / (checks.length : ℚ)
    let weightedScore := averageRisk * 0.6 + acc.maxRisk * 0.4
    if acc.criticalIssues > 1 then
      some (min 100 (weightedScore + (acc.criticalIssues : ℚ) * 10))
    else
      some weightedScore

/-- The comparison `score >= k` of JavaScript: false when `score` is `NaN`. -/
def scoreGe (score : Option ℚ) (k : ℚ) : Bool :=
  match score with
  | none => false
  | some s => decide (s ≥ k)

/-- Method `determineRiskLevel(score)`. -/
def determineRiskLevel (score : Option ℚ) : String :=
  if scoreGe score 80 then "high"
  else if scoreGe score 50 then "medium"
  else if scoreGe score 20 then "low"
  else "safe"

/-! ## Data read by the detectors -/

/-- The properties of a `URL` object that the detector reads. `searchParamNames` is
the sequence of parameter names that iterating `new URLSearchParams(url.search)`
yields (computed by the platform from `search`). -/
structure ParsedUrl where
  protocol : JSString
  hostname : JSString
  pathname : JSString
  search : JSString
  href : JSString
  searchParamNames : List JSString

/-- A list-valued property as it comes back from `chrome.storage`: missing
(`undefined`, replaced by `[]` through `|| []`), an array of strings, or another
truthy value without array methods (calling `.some` or `.includes` on it throws). -/
inductive StoredList where
  | absent
  | array (items : List JSString)
  | other

/-- An exception raised while the detector runs. -/
inductive JSError where
  | typeError
  | storageError

/-- The array a stored list stands for after `|| []`; `.some(...)` / `.includes(...)`
on a value that is not an array throws a `TypeError`. -/
def StoredList.items : StoredList → Except JSError (List JSString)
  | .absent => .ok []
  | .array l => .ok l
  | .other => .error .typeError

/-- The threat database `{ phishingDomains, suspiciousPatterns, urlShorteners,
lastUpdated }`. -/
structure ThreatDatabase where
  phishingDomains : StoredList
  suspiciousPatterns : StoredList
  urlShorteners : StoredList
  lastUpdated : Int

/-- The literal `{ phishingDomains: [], suspiciousPatterns: [], urlShorteners: [],
lastUpdated: 0 }` of `loadThreatDatabase`. -/
def emptyDatabase : ThreatDatabase :=
  { phishingDomains := .array [], suspiciousPatterns := .array [],
    urlShorteners := .array [], lastUpdated := 0 }

/-- What the platform answers during one call of `analyzeUrl`: the URL parser
(`none` when `new URL(text)` throws), `Date.now()`, the outcome of
`chrome.storage.local.get('threatDatabase')` (rejected, or `result.threatDatabase`
which may be missing) and the outcome of
`chrome.storage.sync.get(['whitelistedDomains'])`. -/
structure Platform where
  parseURL : JSString → Option ParsedUrl
  now : Int
  storedThreatDatabase : Except JSError (Option ThreatDatabase)
  storedWhitelist : Except JSError StoredList

/-- The risk score and the explanations a detector accumulates. -/
structure Findings where
  riskScore : Nat
  details : List String

/-- The step `if (cond) { riskScore += risk; details.push(detail); }`. -/
def Findings.add (f : Findings) (cond : Bool) (risk : Nat) (detail : String) : Findings :=
  if cond then { riskScore := f.riskScore + risk, details := f.details ++ [detail] } else f

/-- The expression `details.length > 0 ? details.join('; ') : null`. -/
def joinDetails (details : List String) : Option String :=
  if details.length > 0 then some ("; ".intercalate details) else none

/-! ## The seven detectors -/

/-- Method `checkKnownPhishingDomains(url)`. -/
def checkKnownPhishingDomains (db : ThreatDatabase) (url : ParsedUrl) :
    Except JSError CheckResult := do
  let hostname := toLowerCase url.hostname
  let phishingDomains ← db.phishingDomains.items
  let isKnownPhishing := phishingDomains.any (fun domain =>
    hostname == domain || includes hostname domain ||
      decide (calculateStringSimilarity hostname domain > 0.8))
  return { type := "knownPhishing"
           risk := if isKnownPhishing then 100 else 0
           details := if isKnownPhishing then some "Domain matches known phishing site"
                      else none }

/-- The test `/^\d{1,3}\.\d{1,3}\.\d{1,3}\.\d{1,3}$/.test(hostname)`: exactly four
dot-separated groups of one to three decimal digits. -/
def isIpAddress (hostname : JSString) : Bool :=
  let groups := split hostname '.'
  groups.length == 4 &&
    groups.all (fun g => decide (1 ≤ g.length) && decide (g.length ≤ 3) && g.all Char.isDigit)

/-- Method `checkSuspiciousPatterns(url)`. -/
def checkSuspiciousPatterns (url : ParsedUrl) : CheckResult :=
  let hostname := toLowerCase url.hostname
  let fullUrl := toLowerCase url.href
  let f : Findings := { riskScore := 0, details := [] }
  let f := f.add (isIpAddress hostname) 80 "Using IP address instead of domain name"
  let subdomainCount : Int := ((split hostname '.').length : Int) - 2
  let f := f.add (decide (subdomainCount > 3)) 40 "Excessive number of subdomains"
  let suspiciousTlds := [".tk", ".ml", ".cf", ".ga", ".pw", ".cc"]
  let f := f.add (suspiciousTlds.any (fun tld => endsWith hostname tld.toList)) 60
    "Using suspicious top-level domain"
  let f := f.add (decide (hostname.length > 50)) 30 "Unusually long domain name"
  let hyphenCount := hostname.count '-'
  let f := f.add (decide (hyphenCount > 3)) 50 "Excessive hyphens in domain name"
  let suspiciousKeywords := ["secure", "verify", "update", "confirm", "urgent",
    "suspended", "locked", "expired", "billing"]
  let foundKeywords := suspiciousKeywords.filter (fun keyword => includes fullUrl keyword.toList)
  let f := f.add (decide (foundKeywords.length > 0)) (foundKeywords.length * 15)
    ("Contains suspicious keywords: " ++ ", ".intercalate foundKeywords)
  let f := f.add
    ((includes url.pathname "signin".toList || includes url.pathname "login".toList) &&
      (includes url.search "redirect".toList || includes url.search "return".toList)) 40
    "Login page with redirect parameters"
  { type := "suspiciousPatterns"
    risk := ((min f.riskScore 100 : Nat) : ℚ)
    details := joinDetails f.details }

/-- Method `checkUrlShorteners(url)`. -/
def checkUrlShorteners (db : ThreatDatabase) (url : ParsedUrl) : Except JSError CheckResult := do
  let hostname := toLowerCase url.hostname
  let shorteners ← db.urlShorteners.items
  let isShortener := shorteners.contains hostname
  return { type := "urlShortener"
           risk := if isShortener then 30 else 0
           details := if isShortener then some "URL shortener detected (potential redirect)"
                      else none }

/-- The test `/^[a-z]{8,}\.com$/i.test(hostname)`: eight or more ASCII letters followed
by `.com` and nothing else. -/
def matchesDgaPattern (hostname : JSString) : Bool :=
  let label := hostname.take (hostname.length - 4)
  endsWith hostname ".com".toList && decide (label.length ≥ 8) && label.all Char.isAlpha

/-- Method `checkDomainReputation(url)`. -/
def checkDomainReputation (url : ParsedUrl) : CheckResult :=
  let hostname := toLowerCase url.hostname
  let f : Findings := { riskScore := 0, details := [] }
  let suspiciousNewDomains := ["temp", "new", "2024", "2025"]
  let f := f.add (suspiciousNewDomains.any (fun term => includes hostname term.toList)) 25
    "Potentially recently registered domain"
  let f := f.add
    (matchesDgaPattern hostname && !isCommonWord ((split hostname '.').headD [])) 60
    "Domain appears to be algorithmically generated"
  let f := f.add (containsSuspiciousCharacters hostname) 70
    "Domain contains suspicious unicode characters"
  { type := "domainReputation"
    risk := (f.riskScore : ℚ)
    details := joinDetails f.details }

/-- Method `checkSSLStatus(url)`. -/
def checkSSLStatus (url : ParsedUrl) : CheckResult :=
  let f : Findings := { riskScore := 0, details := [] }
  let f := f.add (url.protocol == "http:".toList) 40 "Website does not use HTTPS encryption"
  let f := f.add (url.protocol == "https:".toList && includes url.hostname "insecure".toList) 20
    "Potential mixed content concerns"
  { type := "sslStatus"
    risk := (f.riskScore : ℚ)
    details := joinDetails f.details }

/-- A hexadecimal digit, `[0-9a-f]` under the `i` flag. -/
def isHexDigit (c : Char) : Bool :=
  c.isDigit || (decide ('a' ≤ c) && decide (c ≤ 'f')) || (decide ('A' ≤ c) && decide (c ≤ 'F'))

/-- The number of matches of `href.match(/%[0-9a-f]{2}/gi)`: a left-to-right scan for
non-overlapping `%` + two hexadecimal digits. -/
def countEncodedOctets : JSString → Nat
  | c :: h1 :: h2 :: after =>
      if c = '%' ∧ isHexDigit h1 = true ∧ isHexDigit h2 = true then
        1 + countEncodedOctets after
      else countEncodedOctets (h1 :: h2 :: after)
  | _ => 0

/-- Method `checkUrlStructure(url)`. -/
def checkUrlStructure (url : ParsedUrl) : CheckResult :=
  let f : Findings := { riskScore := 0, details := [] }
  let encodedCount := countEncodedOctets url.href
  let f := f.add (includes url.href "%".toList && decide (encodedCount > 0) &&
    decide (encodedCount > 5)) 30 "Excessive URL encoding detected"
  let f := f.add (decide (url.href.length > 200)) 25 "Unusually long URL"
  let suspiciousParams := ["password", "pwd", "pass", "key", "token", "auth"]
  let f := f.add (url.searchParamNames.any (fun param =>
    suspiciousParams.any (fun suspicious => includes (toLowerCase param) suspicious.toList))) 40
    "URL contains sensitive parameter names"
  let f := f.add (includes url.href "data:".toList || includes url.href "javascript:".toList) 90
    "URL contains potentially malicious scheme"
  { type := "urlStructure"
    risk := (f.riskScore : ℚ)
    details := joinDetails f.details }

/-- The `legitimateDomains` list of `checkTyposquatting`. -/
def legitimateDomains : List String :=
  ["google.com", "facebook.com", "amazon.com", "paypal.com",
   "microsoft.com", "apple.com", "twitter.com", "instagram.com",
   "linkedin.com", "netflix.com", "ebay.com", "youtube.com"]

/-- The loop `for (const legit of legitimateDomains)` of `checkTyposquatting`, which
leaves at the first `break`. -/
def scanLegitimate (hostname : JSString) : List String → Findings
  | [] => { riskScore := 0, details := [] }
  | legit :: rest =>
      let similarity := calculateStringSimilarity hostname legit.toList
      if similarity > 0.7 ∧ similarity < 1.0 then
        { riskScore := 80, details := ["Possible typosquatting of " ++ legit] }
      else if isCharacterSubstitution hostname legit.toList then
        { riskScore := 85, details := ["Character substitution attack targeting " ++ legit] }
      else scanLegitimate hostname rest

/-- Method `checkTyposquatting(url)`. -/
def checkTyposquatting (url : ParsedUrl) : CheckResult :=
  let hostname := toLowerCase url.hostname
  let f := scanLegitimate hostname legitimateDomains
  { type := "typosquatting"
    risk := (f.riskScore : ℚ)
    details := joinDetails f.details }

/-! ## Orchestration -/

/-- Method `loadThreatDatabase()`: the value stored into `this.threatDatabase`. -/
def loadThreatDatabase (p : Platform) : ThreatDatabase :=
  match p.storedThreatDatabase with
  | .ok (some db) => db
  | .ok none => emptyDatabase
  | .error _ => emptyDatabase

/-- Method `isWhitelisted(hostname)`: the `try` block, then the `catch` that answers `false`. -/
def isWhitelisted (p : Platform) (hostname : JSString) : Bool :=
  let attempt : Except JSError Bool := do
    let settings ← p.storedWhitelist
    let whitelist ← settings.items
    return whitelist.any (fun domain => hostname == domain || endsWith hostname ('.' :: domain))
  match attempt with
  | .ok b => b
  | .error _ => false

/-- The argument of `analyzeUrl`: a string, or an already constructed `URL` object. -/
inductive UrlInput where
  | text (s : JSString)
  | urlObject (u : ParsedUrl)

/-- The condition `!this.threatDatabase || Date.now() - this.threatDatabase.lastUpdated >
3600000`. -/
def needsRefresh (p : Platform) (threatDatabase : Option ThreatDatabase) : Bool :=
  match threatDatabase with
  | none => true
  | some db => decide (p.now - db.lastUpdated > 3600000)

/-- The value of `this.threatDatabase` after the refresh step of `analyzeUrl`. -/
def refreshedDatabase (p : Platform) (threatDatabase : Option ThreatDatabase) : ThreatDatabase :=
  match threatDatabase with
  | none => loadThreatDatabase p
  | some db => if needsRefresh p (some db) then loadThreatDatabase p else db

/-- The `Promise.all` over the seven detector calls, in the order of the source. -/
def runChecks (db : ThreatDatabase) (url : ParsedUrl) : Except JSError (List CheckResult) := do
  let c1 ← checkKnownPhishingDomains db url
  let c2 := checkSuspiciousPatterns url
  let c3 ← checkUrlShorteners db url
  let c4 := checkDomainReputation url
  let c5 := checkSSLStatus url
  let c6 := checkUrlStructure url
  let c7 := checkTyposquatting url
  return [c1, c2, c3, c4, c5, c6, c7]

/-- The second `try` block of `analyzeUrl`, for a `URL` object. -/
def analyzeParsed (p : Platform) (threatDatabase : Option ThreatDatabase) (url : ParsedUrl) :
    Except JSError String :=
  let db := refreshedDatabase p threatDatabase
  if isWhitelisted p url.hostname then
    .ok "safe"
  else
    match runChecks db url with
    | .error e => .error e
    | .ok checks =>
        let riskScore := calculateRiskScore checks
        .ok (determineRiskLevel riskScore)

/-- Method `analyzeUrl(url)` with `this.threatDatabase` as it is when the call starts: the
string returned, or the error propagated to the caller. -/
def analyzeUrl (p : Platform) (threatDatabase : Option ThreatDatabase) (url : UrlInput) :
    Except JSError String :=
  let parsed : Except JSError ParsedUrl :=
    match url with
    | .text s =>
        match p.parseURL s with
        | some u => .ok u
        | none => .error .typeError
    | .urlObject u => .ok u
  match parsed with
  | .error _ => .ok "unknown"
  | .ok u =>
      match analyzeParsed p threatDatabase u with
      | .ok level => .ok level
      | .error _ => .ok "unknown"

/-- The value of `this.threatDatabase` when `analyzeUrl(url)` has returned. -/
def databaseAfterAnalyze (p : Platform) (threatDatabase : Option ThreatDatabase)
    (url : UrlInput) : Option ThreatDatabase :=
  match url with
  | .text s =>
      match p.parseURL s with
      | some _ => some (refreshedDatabase p threatDatabase)
      | none => threatDatabase
  | .urlObject _ => some (refreshedDatabase p threatDatabase)

/-! ## Concrete inputs used to exercise the theorems -/

/-- The URL `http://secure-login.example.tk/login?redirect=1` as a `URL` object. -/
def sampleUrl : ParsedUrl :=
  { protocol := "http:".toList
    hostname := "secure-login.example.tk".toList
    pathname := "/login".toList
    search := "?redirect=1".toList
    href := "http://secure-login.example.tk/login?redirect=1".toList
    searchParamNames := ["redirect".toList] }

/-- A platform whose parser rejects every text, with no stored threat database and the
whitelist `["example.tk"]`. -/
def samplePlatform : Platform :=
  { parseURL := fun _ => none
    now := 0
    storedThreatDatabase := .ok none
    storedWhitelist := .ok (.array ["example.tk".toList]) }

/-- Two check results, one of them critical. -/
def sampleChecks : List CheckResult :=
  [{ type := "knownPhishing", risk := 100, details := none },
   { type := "sslStatus", risk := 40, details := none }]

/-! ## Specification of the edit distance -/

/-- The classic edit distance by its standard recursion: the cheapest of a substitution
(free when the two heads agree), a deletion and an insertion, each of cost one. -/
def editDistance : JSString → JSString → Nat
  | [], b => b.length
  | x :: a, [] => (x :: a).length
  | x :: a, y :: b =>
      min (editDistance a b + (if x = y then 0 else 1))
        (min (editDistance a (y :: b) + 1) (editDistance (x :: a) b + 1))
termination_by a b => a.length + b.length

/-- One single-character edit: an insertion, a deletion or a substitution anywhere. -/
inductive EditStep : JSString → JSString → Prop where
  | insert (l r : JSString) (c : Char) : EditStep (l ++ r) (l ++ c :: r)
  | delete (l r : JSString) (c : Char) : EditStep (l ++ c :: r) (l ++ r)
  | substitute (l r : JSString) (c c' : Char) : EditStep (l ++ c :: r) (l ++ c' :: r)

/-- The relation `EditsIn n a b`: some sequence of exactly `n` single-character edits
turns `a` into `b`. -/
inductive EditsIn : Nat → JSString → JSString → Prop where
  | done (a : JSString) : EditsIn 0 a a
  | step {n : Nat} {a b c : JSString} : EditStep a b → EditsIn n b c → EditsIn (n + 1) a c

/-- The cells `matrix[i][j ..]` as they should be: the distances from the prefixes of
`str1` that extend `q` by at least one character of `s` to the prefix `p` of `str2`. -/
def cellsFrom (q : JSString) : JSString → JSString → List Nat
  | [], _ => []
  | c :: s, p => editDistance (q ++ [c]) p :: cellsFrom (q ++ [c]) s p

/-- Row `p.length` of the matrix as it should be. -/
def rowFor (str1 p : JSString) : List Nat :=
  editDistance [] p :: cellsFrom [] str1 p

/-- The rows after row `p.length` as they should be. -/
def rowsFrom (str1 : JSString) (p : JSString) : JSString → List (List Nat)
  | [] => []
  | c :: s => rowFor str1 (p ++ [c]) :: rowsFrom str1 (p ++ [c]) s

/-! ## Specification of the look-alike transform -/

/-- The look-alike stand-in of one character as the specification lists them: `o` to `0`,
`i` to `1`, `l` to `1`, `e` to `3`, `a` to `@`, `s` to `$`, `g` to `9`, and every
other character to itself. -/
def lookAlike (c : Char) : Char :=
  if c = 'o' then '0'
  else if c = 'i' then '1'
  else if c = 'l' then '1'
  else if c = 'e' then '3'
  else if c = 'a' then '@'
  else if c = 's' then '$'
  else if c = 'g' then '9'
  else c

/-- The transform `T` of the specification: every character replaced at once by its
look-alike. -/
def simultaneousTransform (s : JSString) : JSString := s.map lookAlike

/-- What `replaceAll` does to one character. -/
def replaceChar (original substitute : Char) (c : Char) : Char :=
  if c = original then substitute else c

/-! ## Scenario inputs -/

/-- The URL `http://192.168.1.1/login?redirect=1` as a `URL` object. -/
def ipLoginUrl : ParsedUrl :=
  { protocol := "http:".toList
    hostname := "192.168.1.1".toList
    pathname := "/login".toList
    search := "?redirect=1".toList
    href := "http://192.168.1.1/login?redirect=1".toList
    searchParamNames := ["redirect".toList] }

/-- The URL `https://www.google.com/` as a `URL` object. -/
def googleUrl : ParsedUrl :=
  { protocol := "https:".toList
    hostname := "www.google.com".toList
    pathname := "/".toList
    search := []
    href := "https://www.google.com/".toList
    searchParamNames := [] }

/-- The URL `https://paypal-secure-login-verify.tk/` as a `URL` object. -/
def paypalUrl : ParsedUrl :=
  { protocol := "https:".toList
    hostname := "paypal-secure-login-verify.tk".toList
    pathname := "/".toList
    search := []
    href := "https://paypal-secure-login-verify.tk/".toList
    searchParamNames := [] }

/-- The URL `http://example.org/?password=1&next=data:x` as a `URL` object. -/
def dataParamUrl : ParsedUrl :=
  { protocol := "http:".toList
    hostname := "example.org".toList
    pathname := "/".toList
    search := "?password=1&next=data:x".toList
    href := "http://example.org/?password=1&next=data:x".toList
    searchParamNames := ["password".toList, "next".toList] }

/-- The query string of `overflowUrl`: a sensitive parameter name, six percent-encoded
octets, a `data:` marker and padding that brings the URL beyond 200 characters. -/
def overflowSearch : JSString :=
  "?password=%41%42%43%44%45%46&next=data:x&pad=".toList ++ List.replicate 120 'x'

/-- A URL on host `qwertyuiop.com`, path `/secure/verify/update/confirm/urgent`, whose
query is `overflowSearch`, as a `URL` object. -/
def overflowUrl : ParsedUrl :=
  { protocol := "http:".toList
    hostname := "qwertyuiop.com".toList
    pathname := "/secure/verify/update/confirm/urgent".toList
    search := overflowSearch
    href := "http://qwertyuiop.com/secure/verify/update/confirm/urgent".toList ++ overflowSearch
    searchParamNames := ["password".toList, "next".toList, "pad".toList] }

/-- A platform with an empty whitelist and no stored threat database, whose parser knows
the scenario URLs by their text. -/
def scenarioPlatform : Platform :=
  { parseURL := fun s =>
      if s = ipLoginUrl.href then some ipLoginUrl
      else if s = googleUrl.href then some googleUrl
      else if s = paypalUrl.href then some paypalUrl
      else none
    now := 0
    storedThreatDatabase := .ok none
    storedWhitelist := .ok (.array []) }

/-! ## Integer forms of the similarity tests -/

/-- The test `calculateStringSimilarity(a, b) > 0.8` on the distance and the lengths. -/
def similarityAbove08 (a b : JSString) : Bool :=
  decide (max a.length b.length = 0 ∨ 5 * levenshteinDistance a b < max a.length b.length)

/-- The test `similarity > 0.7 && similarity < 1.0` on the distance and the lengths. -/
def similarityNearMiss (a b : JSString) : Bool :=
  decide (10 * levenshteinDistance a b < 3 * max a.length b.length) &&
    decide (0 < levenshteinDistance a b)

/-- The loop of `checkTyposquatting` with its tests in integer form. -/
def scanLegitimateNat (hostname : JSString) : List String → Findings
  | [] => { riskScore := 0, details := [] }
  | legit :: rest =>
      if similarityNearMiss hostname legit.toList then
        { riskScore := 80, details := ["Possible typosquatting of " ++ legit] }
      else if includes hostname (substituteLegit legit.toList) ||
          similarityAbove08 hostname (substituteLegit legit.toList) then
        { riskScore := 85, details := ["Character substitution attack targeting " ++ legit] }
      else scanLegitimateNat hostname rest

/-- The value of `riskScore` in `analyzeUrl` once the seven detectors have answered:
`calculateRiskScore(checks)`, or the error of a failed detector. -/
def aggregateScore (db : ThreatDatabase) (url : ParsedUrl) : Except JSError (Option ℚ) :=
  match runChecks db url with
  | .error e => .error e
  | .ok checks => .ok (calculateRiskScore checks)

/-- A stored threat database whose `phishingDomains` property is not an array. -/
def brokenDatabase : ThreatDatabase :=
  { phishingDomains := .other, suspiciousPatterns := .array [],
    urlShorteners := .array [], lastUpdated := 0 }

/-- A platform with an empty whitelist whose storage holds `brokenDatabase`. -/
def brokenPlatform : Platform :=
  { parseURL := fun _ => none
    now := 0
    storedThreatDatabase := .ok (some brokenDatabase)
    storedWhitelist := .ok (.array []) }

/-- A snapshot loaded earlier, with one phishing domain and one shortener. -/
def loadedSnapshot : ThreatDatabase :=
  { phishingDomains := .array ["paypal-secure.com".toList]
    suspiciousPatterns := .array []
    urlShorteners := .array ["bit.ly".toList]
    lastUpdated := 0 }

/-- A platform, two hours after `loadedSnapshot` was stored, whose read of the threat
database is rejected. -/
def failingPlatform : Platform :=
  { parseURL := fun _ => none
    now := 7200000
    storedThreatDatabase := .error .storageError
    storedWhitelist := .ok (.array []) }

/-- The seven results that isolating a failed `checkKnownPhishingDomains` would leave for
`http://192.168.1.1/login?redirect=1`: a zero-risk result without details in its place,
and the results of the six other detectors. -/
def substitutedChecks : List CheckResult :=
  [{ type := "knownPhishing", risk := 0, details := none },
    checkSuspiciousPatterns ipLoginUrl,
    { type := "urlShortener", risk := 0, details := none },
    checkDomainReputation ipLoginUrl, checkSSLStatus ipLoginUrl,
    checkUrlStructure ipLoginUrl, checkTyposquatting ipLoginUrl]

/-- The URL `ftp://example.org/` as a `URL` object. -/
def ftpUrl : ParsedUrl :=
  { protocol := "ftp:".toList
    hostname := "example.org".toList
    pathname := "/".toList
    search := []
    href := "ftp://example.org/".toList
    searchParamNames := [] }

/-- The URL `https://paypal-secure.com/` as a `URL` object. -/
def knownPhishingUrl : ParsedUrl :=
  { protocol := "https:".toList
    hostname := "paypal-secure.com".toList
    pathname := "/".toList
    search := []
    href := "https://paypal-secure.com/".toList
    searchParamNames := [] }

/-- Seven results in which only the known-phishing check fired. -/
def singleSignalChecks : List CheckResult :=
  [{ type := "knownPhishing", risk := 100, details := none },
    { type := "suspiciousPatterns", risk := 0, details := none },
    { type := "urlShortener", risk := 0, details := none },
    { type := "domainReputation", risk := 0, details := none },
    { type := "sslStatus", risk := 0, details := none },
    { type := "urlStructure", risk := 0, details := none },
    { type := "typosquatting", risk := 0, details := none }]

/-- The URL `https://goog1e.com/` as a `URL` object. -/
def lookAlikeUrl : ParsedUrl :=
  { protocol := "https:".toList
    hostname := "goog1e.com".toList
    pathname := "/".toList
    search := []
    href := "https://goog1e.com/".toList
    searchParamNames := [] }

/-- The URL `https://ebay.com/` as a `URL` object. -/
def ebayUrl : ParsedUrl :=
  { protocol := "https:".toList
    hostname := "ebay.com".toList
    pathname := "/".toList
    search := []
    href := "https://ebay.com/".toList
    searchParamNames := [] }

/-! ## Specification of the additive detectors -/

/-- One additive contribution of a detector as the specification tabulates it: whether it
applies, the risk it adds and its explanation. -/
structure Contribution where
  applies : Bool
  risk : Nat
  explanation : String

/-- The sum of the risks of the contributions that apply. -/
def appliedRisk (cs : List Contribution) : Nat :=
  ((cs.filter (fun c => c.applies)).map (fun c => c.risk)).sum

/-- The explanations of the contributions that apply, in the order of the checks. -/
def appliedExplanations (cs : List Contribution) : List String :=
  (cs.filter (fun c => c.applies)).map (fun c => c.explanation)

/-- The nine keywords of `checkSuspiciousPatterns`. -/
def suspiciousKeywords : List String :=
  ["secure", "verify", "update", "confirm", "urgent", "suspended", "locked", "expired",
    "billing"]

/-- The contributions of `checkSuspiciousPatterns`, in the order of its checks. -/
def suspiciousPatternsContributions (url : ParsedUrl) : List Contribution :=
  let hostname := toLowerCase url.hostname
  let fullUrl := toLowerCase url.href
  let foundKeywords := suspiciousKeywords.filter (fun keyword => includes fullUrl keyword.toList)
  [{ applies := isIpAddress hostname, risk := 80
     explanation := "Using IP address instead of domain name" },
   { applies := decide (((split hostname '.').length : Int) - 2 > 3), risk := 40
     explanation := "Excessive number of subdomains" },
   { applies := [".tk", ".ml", ".cf", ".ga", ".pw", ".cc"].any
       (fun tld => endsWith hostname tld.toList)
     risk := 60, explanation := "Using suspicious top-level domain" },
   { applies := decide (hostname.length > 50), risk := 30
     explanation := "Unusually long domain name" },
   { applies := decide (hostname.count '-' > 3), risk := 50
     explanation := "Excessive hyphens in domain name" },
   { applies := decide (foundKeywords.length > 0), risk := foundKeywords.length * 15
     explanation := "Contains suspicious keywords: " ++ ", ".intercalate foundKeywords },
   { applies := (includes url.pathname "signin".toList || includes url.pathname "login".toList) &&
       (includes url.search "redirect".toList || includes url.search "return".toList)
     risk := 40, explanation := "Login page with redirect parameters" }]

/-- The contributions of `checkDomainReputation`, in the order of its checks. -/
def domainReputationContributions (url : ParsedUrl) : List Contribution :=
  let hostname := toLowerCase url.hostname
  [{ applies := ["temp", "new", "2024", "2025"].any (fun term => includes hostname term.toList)
     risk := 25, explanation := "Potentially recently registered domain" },
   { applies := matchesDgaPattern hostname && !isCommonWord ((split hostname '.').headD [])
     risk := 60, explanation := "Domain appears to be algorithmically generated" },
   { applies := containsSuspiciousCharacters hostname, risk := 70
     explanation := "Domain contains suspicious unicode characters" }]

/-- The contributions of `checkSSLStatus`, in the order of its checks. -/
def sslStatusContributions (url : ParsedUrl) : List Contribution :=
  [{ applies := url.protocol == "http:".toList, risk := 40
     explanation := "Website does not use HTTPS encryption" },
   { applies := url.protocol == "https:".toList && includes url.hostname "insecure".toList
     risk := 20, explanation := "Potential mixed content concerns" }]

/-- The contributions of `checkUrlStructure`, in the order of its checks. -/
def urlStructureContributions (url : ParsedUrl) : List Contribution :=
  [{ applies := decide (countEncodedOctets url.href > 5), risk := 30
     explanation := "Excessive URL encoding detected" },
   { applies := decide (url.href.length > 200), risk := 25
     explanation := "Unusually long URL" },
   { applies := url.searchParamNames.any (fun param =>
       ["password", "pwd", "pass", "key", "token", "auth"].any
         (fun suspicious => includes (toLowerCase param) suspicious.toList))
     risk := 40, explanation := "URL contains sensitive parameter names" },
   { applies := includes url.href "data:".toList || includes url.href "javascript:".toList
     risk := 90, explanation := "URL contains potentially malicious scheme" }]

/-- The sum `S` of `checkSuspiciousPatterns` as the specification words it. -/
def suspiciousPatternsSum (url : ParsedUrl) : Nat :=
  let hostname := toLowerCase url.hostname
  let fullUrl := toLowerCase url.href
  (if isIpAddress hostname = true then 80 else 0) +
  (if 3 + 2 < (split hostname '.').length then 40 else 0) +
  (if ∃ tld ∈ [".tk", ".ml", ".cf", ".ga", ".pw", ".cc"], tld.toList <:+ hostname
    then 60 else 0) +
  (if 50 < hostname.length then 30 else 0) +
  (if 3 < hostname.count '-' then 50 else 0) +
  (suspiciousKeywords.map (fun keyword => if keyword.toList <:+: fullUrl then 15 else 0)).sum +
  (if ("signin".toList <:+: url.pathname ∨ "login".toList <:+: url.pathname) ∧
      ("redirect".toList <:+: url.search ∨ "return".toList <:+: url.search) then 40 else 0)

/-- A bare dotted quad: four groups of one to three decimal digits separated by dots. -/
def IsDottedQuad (hostname : JSString) : Prop :=
  ∃ a b c d : JSString, hostname = a ++ '.' :: (b ++ '.' :: (c ++ '.' :: d)) ∧
    ∀ g ∈ [a, b, c, d], 1 ≤ g.length ∧ g.length ≤ 3 ∧ ∀ ch ∈ g, ch.isDigit = true

/-- What the specification asks of the details of an additive detector result `r` with
contributions `cs`: they are the explanations of the applied contributions in the order of
the checks, joined by `"; "`; they are absent exactly when no contribution applied; and
that is exactly when the risk is 0. -/
def ExplainsContributions (r : CheckResult) (cs : List Contribution) : Prop :=
  r.details = joinDetails (appliedExplanations cs) ∧
  (r.details = none ↔ ∀ c ∈ cs, c.applies = false) ∧
  (r.details = none ↔ r.risk = 0)

/-! ## The edit distance and the matrix of `levenshteinDistance` -/

theorem editDistance_nil_left (b : JSString) : editDistance [] b = b.length := by
  simp [editDistance]

theorem editDistance_nil_right (a : JSString) : editDistance a [] = a.length := by
  cases a <;> simp [editDistance]

theorem editDistance_cons_cons (x y : Char) (a b : JSString) :
    editDistance (x :: a) (y :: b) =
      min (editDistance a b + (if x = y then 0 else 1))
        (min (editDistance a (y :: b) + 1) (editDistance (x :: a) b + 1)) := by
  rw [editDistance]


theorem editDistance_self (a : JSString) : editDistance a a = 0 := by
  induction a with
  | nil => simp [editDistance_nil_left]
  | cons x a ih => rw [editDistance_cons_cons]; simp [ih]

theorem editDistance_comm (a b : JSString) : editDistance a b = editDistance b a := by
  induction a generalizing b with
  | nil => rw [editDistance_nil_left, editDistance_nil_right]
  | cons x a iha =>
    induction b with
    | nil => rw [editDistance_nil_left, editDistance_nil_right]
    | cons y b ihb =>
      rw [editDistance_cons_cons, editDistance_cons_cons, iha b, iha (y :: b), ihb,
        min_comm (editDistance (y :: b) a + 1)]
      simp only [eq_comm]

/-- Deleting the head costs at most one. -/
theorem editDistance_cons_left_le (x : Char) (a b : JSString) :
    editDistance (x :: a) b ≤ editDistance a b + 1 := by
  cases b with
  | nil => simp [editDistance_nil_right]
  | cons y b =>
    rw [editDistance_cons_cons]
    exact (min_le_right _ _).trans (min_le_left _ _)

/-- Inserting a head costs at most one. -/
theorem editDistance_cons_right_le (y : Char) (a b : JSString) :
    editDistance a (y :: b) ≤ editDistance a b + 1 := by
  rw [editDistance_comm a (y :: b), editDistance_comm a b]
  exact editDistance_cons_left_le y b a

/-- Dropping the head of the source lowers the distance by at most one. -/
theorem editDistance_le_cons_left (x : Char) (a b : JSString) :
    editDistance a b ≤ editDistance (x :: a) b + 1 := by
  induction b with
  | nil => simp only [editDistance_nil_right, List.length_cons]; omega
  | cons y b ih =>
    rw [editDistance_cons_cons]
    have h1 := editDistance_cons_right_le y a b
    split_ifs <;> omega

theorem editDistance_le_cons_right (y : Char) (a b : JSString) :
    editDistance a b ≤ editDistance a (y :: b) + 1 := by
  rw [editDistance_comm a (y :: b), editDistance_comm a b]
  exact editDistance_le_cons_left y b a

/-- When the heads agree the diagonal alone is already the minimum. -/
theorem editDistance_cons_same (x : Char) (a b : JSString) :
    editDistance (x :: a) (x :: b) = editDistance a b := by
  rw [editDistance_cons_cons]
  have h1 := editDistance_le_cons_left x a b
  have h2 := editDistance_le_cons_right x a b
  simp only [if_true, Nat.add_zero]
  omega

/-- Changing the head of the source changes the distance by at most one. -/
theorem editDistance_subst_head_le (x x' : Char) (a b : JSString) :
    editDistance (x :: a) b ≤ editDistance (x' :: a) b + 1 := by
  induction b with
  | nil => simp [editDistance_nil_right]
  | cons y b ih =>
    rw [editDistance_cons_cons x y, editDistance_cons_cons x' y]
    split_ifs <;> omega

/-- A bound that holds for the tails carries over to a common head. -/
theorem editDistance_cons_lipschitz (z : Char) (a a' : JSString)
    (h : ∀ c, editDistance a c ≤ editDistance a' c + 1) (c : JSString) :
    editDistance (z :: a) c ≤ editDistance (z :: a') c + 1 := by
  induction c with
  | nil =>
    have := h []
    simp only [editDistance_nil_right] at this
    simp [editDistance_nil_right]; omega
  | cons y c ih =>
    rw [editDistance_cons_cons z y a, editDistance_cons_cons z y a']
    have h1 := h c
    have h2 := h (y :: c)
    split_ifs <;> omega

/-- One edit of the source changes the distance to any target by at most one. -/
theorem editDistance_step_le {a b : JSString} (h : EditStep a b) (c : JSString) :
    editDistance a c ≤ editDistance b c + 1 := by
  cases h with
  | insert l r x =>
    induction l generalizing c with
    | nil => exact editDistance_le_cons_left x r c
    | cons z l ih => exact editDistance_cons_lipschitz z _ _ ih c
  | delete l r x =>
    induction l generalizing c with
    | nil => exact editDistance_cons_left_le x r c
    | cons z l ih => exact editDistance_cons_lipschitz z _ _ ih c
  | substitute l r x x' =>
    induction l generalizing c with
    | nil => exact editDistance_subst_head_le x x' r c
    | cons z l ih => exact editDistance_cons_lipschitz z _ _ ih c

/-- No sequence of edits is shorter than the edit distance. -/
theorem editDistance_le_of_editsIn {n : Nat} {a b : JSString} (h : EditsIn n a b) :
    editDistance a b ≤ n := by
  induction h with
  | done a => simp [editDistance_self]
  | step hs _ ih => exact (editDistance_step_le hs _).trans (Nat.succ_le_succ ih)

theorem editStep_cons (x : Char) {a b : JSString} (h : EditStep a b) :
    EditStep (x :: a) (x :: b) := by
  cases h with
  | insert l r c => exact EditStep.insert (x :: l) r c
  | delete l r c => exact EditStep.delete (x :: l) r c
  | substitute l r c c' => exact EditStep.substitute (x :: l) r c c'

theorem editsIn_cons (x : Char) {n : Nat} {a b : JSString} (h : EditsIn n a b) :
    EditsIn n (x :: a) (x :: b) := by
  induction h with
  | done a => exact EditsIn.done _
  | step hs _ ih => exact EditsIn.step (editStep_cons x hs) ih

/-- Some sequence of edits has exactly the length of the edit distance. -/
theorem editsIn_editDistance (a b : JSString) : EditsIn (editDistance a b) a b := by
  induction a generalizing b with
  | nil =>
    rw [editDistance_nil_left]
    induction b with
    | nil => exact EditsIn.done _
    | cons y b ih => exact EditsIn.step (EditStep.insert [] [] y) (editsIn_cons y ih)
  | cons x a iha =>
    induction b with
    | nil =>
      rw [editDistance_nil_right]
      exact EditsIn.step (EditStep.delete [] a x) (by simpa [editDistance_nil_right] using iha [])
    | cons y b ihb =>
      rw [editDistance_cons_cons]
      rcases min_choice (editDistance a b + (if x = y then 0 else 1))
        (min (editDistance a (y :: b) + 1) (editDistance (x :: a) b + 1)) with h | h
      · rw [h]
        by_cases hxy : x = y
        · subst hxy; simpa using editsIn_cons x (iha b)
        · simp only [hxy, if_false]
          exact EditsIn.step (EditStep.substitute [] a x y) (editsIn_cons y (iha b))
      · rw [h]
        rcases min_choice (editDistance a (y :: b) + 1) (editDistance (x :: a) b + 1) with h' | h'
        · rw [h']
          exact EditsIn.step (EditStep.delete [] a x) (iha (y :: b))
        · rw [h']
          exact EditsIn.step (EditStep.insert [] (x :: a) y) (editsIn_cons y ihb)

theorem editStep_reverse {a b : JSString} (h : EditStep a b) :
    EditStep a.reverse b.reverse := by
  cases h with
  | insert l r c =>
    simpa using EditStep.insert r.reverse l.reverse c
  | delete l r c =>
    simpa using EditStep.delete r.reverse l.reverse c
  | substitute l r c c' =>
    simpa using EditStep.substitute r.reverse l.reverse c c'

theorem editsIn_reverse {n : Nat} {a b : JSString} (h : EditsIn n a b) :
    EditsIn n a.reverse b.reverse := by
  induction h with
  | done a => exact EditsIn.done _
  | step hs _ ih => exact EditsIn.step (editStep_reverse hs) ih

/-- Reading both strings backwards does not change the edit distance. -/
theorem editDistance_reverse (a b : JSString) :
    editDistance a.reverse b.reverse = editDistance a b := by
  apply le_antisymm
  · exact editDistance_le_of_editsIn (editsIn_reverse (editsIn_editDistance a b))
  · have h := editDistance_le_of_editsIn (editsIn_reverse (editsIn_editDistance a.reverse b.reverse))
    simpa using h

/-- The recursion of the edit distance read at the last characters. -/
theorem editDistance_snoc_snoc (x y : Char) (p q : JSString) :
    editDistance (p ++ [x]) (q ++ [y]) =
      min (editDistance p q + (if x = y then 0 else 1))
        (min (editDistance p (q ++ [y]) + 1) (editDistance (p ++ [x]) q + 1)) := by
  rw [← editDistance_reverse (p ++ [x]) (q ++ [y]), ← editDistance_reverse p q,
    ← editDistance_reverse p (q ++ [y]), ← editDistance_reverse (p ++ [x]) q]
  simp only [List.reverse_append, List.reverse_cons, List.reverse_nil, List.nil_append,
    List.singleton_append]
  rw [editDistance_cons_cons]

theorem editDistance_snoc_same (x : Char) (p q : JSString) :
    editDistance (p ++ [x]) (q ++ [x]) = editDistance p q := by
  rw [← editDistance_reverse (p ++ [x]) (q ++ [x]), ← editDistance_reverse p q]
  simp only [List.reverse_append, List.reverse_cons, List.reverse_nil, List.nil_append,
    List.singleton_append]
  exact editDistance_cons_same x _ _

theorem rowCells_eq (c2 : Char) (p : JSString) (s q : JSString) :
    rowCells c2 s (editDistance q p :: cellsFrom q s p) (editDistance q (p ++ [c2])) =
      cellsFrom q s (p ++ [c2]) := by
  induction s generalizing q with
  | nil => simp [rowCells, cellsFrom]
  | cons c1 s ih =>
    have hcell : (if c2 = c1 then editDistance q p
        else min (editDistance q p + 1)
          (min (editDistance q (p ++ [c2]) + 1) (editDistance (q ++ [c1]) p + 1))) =
        editDistance (q ++ [c1]) (p ++ [c2]) := by
      by_cases h : c2 = c1
      · subst h; simp [editDistance_snoc_same]
      · rw [editDistance_snoc_snoc]
        have h' : ¬ c1 = c2 := fun e => h e.symm
        simp only [h, h', if_false]
    simp only [cellsFrom, rowCells, hcell]
    rw [ih (q ++ [c1])]

theorem cellsFrom_nil_right (q s : JSString) :
    cellsFrom q s [] = List.range' (q.length + 1) s.length := by
  induction s generalizing q with
  | nil => simp [cellsFrom]
  | cons c s ih =>
    simp [cellsFrom, ih, editDistance_nil_right, List.range'_succ]

theorem firstRow_eq (str1 : JSString) : firstRow str1 = rowFor str1 [] := by
  simp [firstRow, rowFor, cellsFrom_nil_right, editDistance_nil_left, List.range_eq_range',
    List.range'_succ]

theorem nextRow_eq (str1 p : JSString) (c2 : Char) :
    nextRow str1 (rowFor str1 p) (p.length + 1) c2 = rowFor str1 (p ++ [c2]) := by
  have h := rowCells_eq c2 p str1 []
  simp only [editDistance_nil_left, List.length_append, List.length_singleton] at h
  simp only [nextRow, rowFor, editDistance_nil_left, List.length_append, List.length_singleton]
  rw [h]

theorem fillRows_eq (str1 : JSString) (s p : JSString) :
    fillRows str1 s (p.length + 1) (rowFor str1 p) = rowsFrom str1 p s := by
  induction s generalizing p with
  | nil => simp [fillRows, rowsFrom]
  | cons c s ih =>
    simp only [fillRows, rowsFrom, nextRow_eq]
    have := ih (p ++ [c])
    simp only [List.length_append, List.length_singleton] at this
    rw [this]

theorem rows_getD (str1 : JSString) (s p : JSString) :
    (rowFor str1 p :: rowsFrom str1 p s).getD s.length [] = rowFor str1 (p ++ s) := by
  induction s generalizing p with
  | nil => simp [rowsFrom]
  | cons c s ih =>
    have := ih (p ++ [c])
    simpa [rowsFrom] using this

theorem cells_getD (p : JSString) (s q : JSString) :
    (editDistance q p :: cellsFrom q s p).getD s.length 0 = editDistance (q ++ s) p := by
  induction s generalizing q with
  | nil => simp [cellsFrom]
  | cons c s ih =>
    have := ih (q ++ [c])
    simpa [cellsFrom] using this

/-- The dynamic programme computes the specified edit distance. -/
theorem levenshteinDistance_eq_editDistance (str1 str2 : JSString) :
    levenshteinDistance str1 str2 = editDistance str1 str2 := by
  unfold levenshteinDistance levenshteinMatrix
  rw [firstRow_eq]
  have h := fillRows_eq str1 str2 []
  simp only [List.length_nil, Nat.zero_add] at h
  rw [h, rows_getD, rowFor, cells_getD]
  simp

/-! ## Classification -/

theorem scoreGe_some (s k : ℚ) : scoreGe (some s) k = true ↔ k ≤ s := by
  simp [scoreGe]

/-- C4: on every (finite) score the four levels are cut at 80, 50 and 20 with inclusive
lower bounds, the four ranges are disjoint, and `unknown` is never the answer, not even
for `NaN`. -/
theorem determineRiskLevel_thresholds (s : ℚ) :
    (determineRiskLevel (some s) = "high" ↔ 80 ≤ s) ∧
    (determineRiskLevel (some s) = "medium" ↔ 50 ≤ s ∧ s < 80) ∧
    (determineRiskLevel (some s) = "low" ↔ 20 ≤ s ∧ s < 50) ∧
    (determineRiskLevel (some s) = "safe" ↔ s < 20) ∧
    determineRiskLevel (some 80) = "high" ∧
    determineRiskLevel (some 50) = "medium" ∧
    determineRiskLevel (some 20) = "low" ∧
    (∀ score : Option ℚ, determineRiskLevel score ≠ "unknown") := by
  have key : ∀ score : Option ℚ, determineRiskLevel score ≠ "unknown" := by
    intro score
    unfold determineRiskLevel
    split_ifs <;> decide
  refine ⟨?_, ?_, ?_, ?_, ?_, ?_, ?_, key⟩
  · unfold determineRiskLevel
    by_cases h1 : 80 ≤ s
    · simp [scoreGe, h1]
    · by_cases h2 : 50 ≤ s
      · simp [scoreGe, h1, h2]
      · by_cases h3 : 20 ≤ s <;> simp [scoreGe, h1, h2, h3]
  · unfold determineRiskLevel
    by_cases h1 : 80 ≤ s
    · have : ¬ s < 80 := not_lt.mpr h1
      simp [scoreGe, h1, this]
    · by_cases h2 : 50 ≤ s
      · simp [scoreGe, h1, h2, not_le.mp h1]
      · by_cases h3 : 20 ≤ s <;> simp [scoreGe, h1, h2, h3]
  · unfold determineRiskLevel
    by_cases h1 : 80 ≤ s
    · have : ¬ s < 50 := by linarith
      simp [scoreGe, h1, this]
    · by_cases h2 : 50 ≤ s
      · have : ¬ s < 50 := not_lt.mpr h2
        simp [scoreGe, h1, h2, this]
      · by_cases h3 : 20 ≤ s <;> simp [scoreGe, h1, h2, h3, not_le.mp h2]
  · unfold determineRiskLevel
    by_cases h1 : 80 ≤ s
    · have : ¬ s < 20 := by linarith
      simp [scoreGe, h1, this]
    · by_cases h2 : 50 ≤ s
      · have : ¬ s < 20 := by linarith
        simp [scoreGe, h1, h2, this]
      · by_cases h3 : 20 ≤ s
        · simp [scoreGe, h1, h2, h3, not_lt.mpr h3]
        · simp [scoreGe, h1, h2, h3, not_le.mp h3]
  · decide
  · decide
  · decide

/-! ## Aggregation -/

theorem foldl_accumulate_totalRisk (l : List CheckResult) (acc : RiskTotals) :
    (l.foldl accumulate acc).totalRisk = acc.totalRisk + (l.map (fun c => c.risk)).sum := by
  induction l generalizing acc with
  | nil => simp
  | cons c l ih => simp [ih, accumulate, add_assoc]

theorem foldl_accumulate_criticalIssues (l : List CheckResult) (acc : RiskTotals) :
    (l.foldl accumulate acc).criticalIssues =
      acc.criticalIssues + l.countP (fun c => decide (c.risk ≥ 80)) := by
  induction l generalizing acc with
  | nil => simp
  | cons c l ih =>
    by_cases h : c.risk ≥ 80
    · simp [ih, accumulate, h, List.countP_cons]; omega
    · simp [ih, accumulate, h, List.countP_cons]

theorem le_foldl_accumulate_maxRisk (l : List CheckResult) (acc : RiskTotals) :
    acc.maxRisk ≤ (l.foldl accumulate acc).maxRisk ∧
      ∀ c ∈ l, c.risk ≤ (l.foldl accumulate acc).maxRisk := by
  induction l generalizing acc with
  | nil => simp
  | cons c l ih =>
    have h := ih (accumulate acc c)
    have h1 : acc.maxRisk ≤ (accumulate acc c).maxRisk := le_max_left _ _
    have h2 : c.risk ≤ (accumulate acc c).maxRisk := le_max_right _ _
    refine ⟨h1.trans h.1, ?_⟩
    intro d hd
    rcases List.mem_cons.mp hd with rfl | hd
    · exact h2.trans h.1
    · exact h.2 d hd

theorem foldl_accumulate_maxRisk_mem (l : List CheckResult) (acc : RiskTotals) :
    (l.foldl accumulate acc).maxRisk = acc.maxRisk ∨
      ∃ c ∈ l, (l.foldl accumulate acc).maxRisk = c.risk := by
  induction l generalizing acc with
  | nil => simp
  | cons c l ih =>
    rcases ih (accumulate acc c) with h | ⟨d, hd, h⟩
    · rcases max_choice acc.maxRisk c.risk with h' | h'
      · left
        simpa [accumulate, h'] using h
      · right
        exact ⟨c, List.mem_cons_self _ _, by simpa [accumulate, h'] using h⟩
    · right
      exact ⟨d, List.mem_cons_of_mem _ hd, h⟩

/-- The `maxRisk` of the loop is the greatest risk of a non-empty list of non-negative
risks. -/
theorem foldl_accumulate_maxRisk_eq (checks : List CheckResult)
    (hnonneg : ∀ c ∈ checks, 0 ≤ c.risk) (m : ℚ)
    (hmax : IsGreatest {r | ∃ c ∈ checks, c.risk = r} m) :
    (checks.foldl accumulate ⟨0, 0, 0⟩).maxRisk = m := by
  obtain ⟨⟨c0, hc0, hc0m⟩, hub⟩ := hmax
  have hle := le_foldl_accumulate_maxRisk checks ⟨0, 0, 0⟩
  apply le_antisymm
  · rcases foldl_accumulate_maxRisk_mem checks ⟨0, 0, 0⟩ with h | ⟨d, hd, h⟩
    · rw [h, ← hc0m]
      exact hnonneg c0 hc0
    · rw [h]
      exact hub ⟨d, hd, rfl⟩
  · rw [← hc0m]
    exact hle.2 c0 hc0

/-- C5: on a non-empty list of non-negative risks `calculateRiskScore` is the blend
`(sum / count) * 0.6 + max * 0.4`, returned as it is when at most one risk is at least
80, and raised by ten per critical risk and capped at 100 when more than one is. -/
theorem calculateRiskScore_formula (checks : List CheckResult) (hne : checks ≠ [])
    (hnonneg : ∀ c ∈ checks, 0 ≤ c.risk) (m : ℚ)
    (hmax : IsGreatest {r | ∃ c ∈ checks, c.risk = r} m) :
    calculateRiskScore checks =
      some (if checks.countP (fun c => decide (c.risk ≥ 80)) ≤ 1 then
          (checks.map (fun c => c.risk)).sum / (checks.length : ℚ) * 0.6 + m * 0.4
        else
          min 100 ((checks.map (fun c => c.risk)).sum / (checks.length : ℚ) * 0.6 + m * 0.4
            + 10 * ((checks.countP (fun c => decide (c.risk ≥ 80)) : ℕ) : ℚ))) := by
  have hlen : checks.length ≠ 0 := by
    simpa [List.length_eq_zero] using hne
  unfold calculateRiskScore
  simp only [hlen, if_false, foldl_accumulate_totalRisk, foldl_accumulate_criticalIssues,
    foldl_accumulate_maxRisk_eq checks hnonneg m hmax, zero_add]
  by_cases hc : checks.countP (fun c => decide (c.risk ≥ 80)) ≤ 1
  · have : ¬ checks.countP (fun c => decide (c.risk ≥ 80)) > 1 := by omega
    simp only [hc, this, if_true, if_false]
  · have : checks.countP (fun c => decide (c.risk ≥ 80)) > 1 := by omega
    simp only [hc, this, if_true, if_false, mul_comm]

theorem foldl_accumulate_bounds (checks : List CheckResult)
    (hrange : ∀ c ∈ checks, 0 ≤ c.risk ∧ c.risk ≤ 100) :
    0 ≤ (checks.foldl accumulate ⟨0, 0, 0⟩).totalRisk ∧
    (checks.foldl accumulate ⟨0, 0, 0⟩).totalRisk ≤ 100 * (checks.length : ℚ) ∧
    0 ≤ (checks.foldl accumulate ⟨0, 0, 0⟩).maxRisk ∧
    (checks.foldl accumulate ⟨0, 0, 0⟩).maxRisk ≤ 100 := by
  refine ⟨?_, ?_, ?_, ?_⟩
  · rw [foldl_accumulate_totalRisk]
    simp only [zero_add]
    apply List.sum_nonneg
    intro x hx
    obtain ⟨c, hc, rfl⟩ := List.mem_map.mp hx
    exact (hrange c hc).1
  · rw [foldl_accumulate_totalRisk]
    simp only [zero_add]
    have h := List.sum_le_card_nsmul (checks.map (fun c => c.risk)) 100 (by
      intro x hx
      obtain ⟨c, hc, rfl⟩ := List.mem_map.mp hx
      exact (hrange c hc).2)
    simpa [mul_comm] using h
  · exact (le_foldl_accumulate_maxRisk checks ⟨0, 0, 0⟩).1
  · rcases foldl_accumulate_maxRisk_mem checks ⟨0, 0, 0⟩ with h | ⟨d, hd, h⟩
    · rw [h]; norm_num
    · rw [h]; exact (hrange d hd).2

/-- The blend of an average and a maximum that both lie in `[0, 100]` lies in `[0, 100]`. -/
theorem weighted_bounds (t m n : ℚ) (hn : 0 < n) (ht0 : 0 ≤ t) (ht : t ≤ 100 * n)
    (hm0 : 0 ≤ m) (hm : m ≤ 100) :
    0 ≤ t / n * 0.6 + m * 0.4 ∧ t / n * 0.6 + m * 0.4 ≤ 100 := by
  have h1 : 0 ≤ t / n := div_nonneg ht0 hn.le
  have h2 : t / n ≤ 100 := by
    rw [div_le_iff₀ hn]; exact ht
  constructor <;> norm_num <;> linarith

/-- C6: on a non-empty list of risks in `[0, 100]` `calculateRiskScore` returns a number
in `[0, 100]`. -/
theorem calculateRiskScore_range (checks : List CheckResult) (hne : checks ≠ [])
    (hrange : ∀ c ∈ checks, 0 ≤ c.risk ∧ c.risk ≤ 100) :
    ∃ s, calculateRiskScore checks = some s ∧ 0 ≤ s ∧ s ≤ 100 := by
  have hlen : checks.length ≠ 0 := by
    simpa [List.length_eq_zero] using hne
  have hpos : (0 : ℚ) < (checks.length : ℚ) := by
    exact_mod_cast Nat.pos_of_ne_zero hlen
  obtain ⟨ht0, ht, hm0, hm⟩ := foldl_accumulate_bounds checks hrange
  obtain ⟨hw0, hw⟩ := weighted_bounds _ _ _ hpos ht0 ht hm0 hm
  unfold calculateRiskScore
  simp only [hlen, if_false]
  split_ifs with hc
  · refine ⟨_, rfl, ?_, min_le_left _ _⟩
    apply le_min (by norm_num)
    have : (0 : ℚ) ≤ ((checks.foldl accumulate ⟨0, 0, 0⟩).criticalIssues : ℚ) * 10 := by
      positivity
    linarith
  · exact ⟨_, rfl, hw0, hw⟩

/-- Raising risks position by position raises none of the three accumulators. -/
theorem foldl_accumulate_mono (l l' : List CheckResult)
    (h : List.Forall₂ (fun c c' => c.risk ≤ c'.risk) l l') (acc acc' : RiskTotals)
    (ht : acc.totalRisk ≤ acc'.totalRisk) (hm : acc.maxRisk ≤ acc'.maxRisk)
    (hk : acc.criticalIssues ≤ acc'.criticalIssues) :
    (l.foldl accumulate acc).totalRisk ≤ (l'.foldl accumulate acc').totalRisk ∧
    (l.foldl accumulate acc).maxRisk ≤ (l'.foldl accumulate acc').maxRisk ∧
    (l.foldl accumulate acc).criticalIssues ≤ (l'.foldl accumulate acc').criticalIssues := by
  induction h generalizing acc acc' with
  | nil => exact ⟨ht, hm, hk⟩
  | @cons c c' l l' hc _ ih =>
    simp only [List.foldl_cons]
    apply ih
    · exact add_le_add ht hc
    · exact max_le_max hm hc
    · simp only [accumulate]
      by_cases h80 : c.risk ≥ 80
      · have h80' : c'.risk ≥ 80 := le_trans h80 hc
        simp only [h80, h80', if_true]; omega
      · simp only [h80, if_false]
        split_ifs <;> omega

theorem forall₂_set_risk (l : List CheckResult) (i : Nat) (c' : CheckResult)
    (h : ∀ hi : i < l.length, l[i].risk ≤ c'.risk) :
    List.Forall₂ (fun c c' => c.risk ≤ c'.risk) l (l.set i c') := by
  induction l generalizing i with
  | nil => simp
  | cons d l ih =>
    cases i with
    | zero =>
      simp only [List.set_cons_zero]
      refine List.Forall₂.cons (by simpa using h) ?_
      exact List.forall₂_same.mpr (fun _ _ => le_rfl)
    | succ i =>
      simp only [List.set_cons_succ]
      refine List.Forall₂.cons le_rfl (ih i ?_)
      intro hi
      have := h (by simpa using Nat.succ_lt_succ hi)
      simpa using this

/-- C7: raising one risk inside `[0, 100]`, the others unchanged, never lowers
`calculateRiskScore`, also when the raise brings the critical-issue bonus and its cap
into play. -/
theorem calculateRiskScore_monotone (checks : List CheckResult) (hne : checks ≠ [])
    (hrange : ∀ c ∈ checks, 0 ≤ c.risk ∧ c.risk ≤ 100)
    (i : Nat) (hi : i < checks.length) (r' : ℚ) (hr' : r' ≤ 100)
    (hge : checks[i].risk ≤ r') :
    ∃ s s', calculateRiskScore checks = some s ∧
      calculateRiskScore (checks.set i { checks[i] with risk := r' }) = some s' ∧
      s ≤ s' := by
  have hlen : checks.length ≠ 0 := by
    simpa [List.length_eq_zero] using hne
  have hpos : (0 : ℚ) < (checks.length : ℚ) := by
    exact_mod_cast Nat.pos_of_ne_zero hlen
  have hrange' : ∀ c ∈ checks.set i { checks[i] with risk := r' },
      0 ≤ c.risk ∧ c.risk ≤ 100 := by
    intro c hc
    rcases List.mem_or_eq_of_mem_set hc with hc | rfl
    · exact hrange c hc
    · exact ⟨le_trans (hrange _ (List.getElem_mem hi)).1 hge, hr'⟩
  have hmono := foldl_accumulate_mono checks (checks.set i { checks[i] with risk := r' })
    (forall₂_set_risk checks i _ (fun _ => hge)) ⟨0, 0, 0⟩ ⟨0, 0, 0⟩ le_rfl le_rfl le_rfl
  obtain ⟨hT, hM, hK⟩ := hmono
  have hb' := foldl_accumulate_bounds _ hrange'
  simp only [List.length_set] at hb'
  obtain ⟨ht0', ht', hm0', hm'⟩ := hb'
  obtain ⟨-, hw'⟩ := weighted_bounds _ _ _ hpos ht0' ht' hm0' hm'
  have hw : (checks.foldl accumulate ⟨0, 0, 0⟩).totalRisk / (checks.length : ℚ) * 0.6 +
      (checks.foldl accumulate ⟨0, 0, 0⟩).maxRisk * 0.4 ≤
      ((checks.set i { checks[i] with risk := r' }).foldl accumulate ⟨0, 0, 0⟩).totalRisk /
        (checks.length : ℚ) * 0.6 +
      ((checks.set i { checks[i] with risk := r' }).foldl accumulate ⟨0, 0, 0⟩).maxRisk * 0.4 := by
    have := div_le_div_of_nonneg_right hT hpos.le
    norm_num
    linarith
  have hKq : ((checks.foldl accumulate ⟨0, 0, 0⟩).criticalIssues : ℚ) ≤
      (((checks.set i { checks[i] with risk := r' }).foldl accumulate
        ⟨0, 0, 0⟩).criticalIssues : ℚ) := by
    exact_mod_cast hK
  unfold calculateRiskScore
  simp only [List.length_set, hlen, if_false]
  by_cases hc : (checks.foldl accumulate ⟨0, 0, 0⟩).criticalIssues > 1
  · have hc' : ((checks.set i { checks[i] with risk := r' }).foldl accumulate
        ⟨0, 0, 0⟩).criticalIssues > 1 := lt_of_lt_of_le hc hK
    simp only [hc, hc', if_true]
    refine ⟨_, _, rfl, rfl, ?_⟩
    apply min_le_min le_rfl
    linarith
  · simp only [hc, if_false]
    split_ifs with hc'
    · refine ⟨_, _, rfl, rfl, ?_⟩
      apply le_min (le_trans hw hw')
      have : (0 : ℚ) ≤ (((checks.set i { checks[i] with risk := r' }).foldl accumulate
        ⟨0, 0, 0⟩).criticalIssues : ℚ) * 10 := by positivity
      linarith
    · exact ⟨_, _, rfl, rfl, hw⟩

/-! ## String similarity -/

/-- C8: `levenshteinDistance` is the classic edit distance: it equals the standard
recursion (which always takes the minimum of substitution, deletion and insertion, so
copying the diagonal cell on equal characters loses nothing), and it is the least number
of single-character insertions, deletions and substitutions that turn `a` into `b`. -/
theorem levenshteinDistance_classic (a b : JSString) :
    levenshteinDistance a b = editDistance a b ∧
    IsLeast {n | EditsIn n a b} (levenshteinDistance a b) ∧
    (∀ x : Char, levenshteinDistance (a ++ [x]) (b ++ [x]) = levenshteinDistance a b) := by
  refine ⟨levenshteinDistance_eq_editDistance a b, ⟨?_, ?_⟩, ?_⟩
  · rw [levenshteinDistance_eq_editDistance]
    exact editsIn_editDistance a b
  · intro n hn
    rw [levenshteinDistance_eq_editDistance]
    exact editDistance_le_of_editsIn hn
  · intro x
    rw [levenshteinDistance_eq_editDistance, levenshteinDistance_eq_editDistance,
      editDistance_snoc_same]

theorem levenshteinDistance_comm (a b : JSString) :
    levenshteinDistance a b = levenshteinDistance b a := by
  rw [levenshteinDistance_eq_editDistance, levenshteinDistance_eq_editDistance,
    editDistance_comm]

theorem levenshteinDistance_self (a : JSString) : levenshteinDistance a a = 0 := by
  rw [levenshteinDistance_eq_editDistance, editDistance_self]

/-- The value of `calculateStringSimilarity` without the reordering into longer and
shorter. -/
theorem calculateStringSimilarity_eq (a b : JSString) :
    calculateStringSimilarity a b =
      if a = [] ∧ b = [] then 1
      else 1 - (levenshteinDistance a b : ℚ) / ((max a.length b.length : ℕ) : ℚ) := by
  unfold calculateStringSimilarity
  by_cases hlt : a.length > b.length
  · have ha : a ≠ [] := by
      intro h; simp [h] at hlt
    have hlen : a.length ≠ 0 := by omega
    have hq : (a.length : ℚ) ≠ 0 := by exact_mod_cast hlen
    have hmax : max a.length b.length = a.length := max_eq_left hlt.le
    simp only [hlt, if_true, hlen, if_false, ha, false_and, hmax]
    field_simp
  · have hmax : max a.length b.length = b.length := max_eq_right (not_lt.mp hlt)
    simp only [hlt, if_false, hmax]
    by_cases hb : b.length = 0
    · have hb' : b = [] := List.length_eq_zero.mp hb
      have ha' : a = [] := by
        apply List.length_eq_zero.mp
        omega
      simp [hb', ha']
    · have hb' : b ≠ [] := fun h => hb (by simp [h])
      have hq : (b.length : ℚ) ≠ 0 := by exact_mod_cast hb
      simp only [hb, if_false, hb', and_false, levenshteinDistance_comm b a]
      field_simp

/-- C9: unless both strings are empty `calculateStringSimilarity(a, b)` is
`1 - levenshteinDistance(a, b) / max(len a, len b)`, whichever argument is the longer
one; it is `1` for two empty strings; and it is symmetric in its arguments. -/
theorem calculateStringSimilarity_formula (a b : JSString) :
    calculateStringSimilarity a b =
      (if a = [] ∧ b = [] then 1
       else 1 - (levenshteinDistance a b : ℚ) / ((max a.length b.length : ℕ) : ℚ)) ∧
    calculateStringSimilarity [] [] = 1 ∧
    calculateStringSimilarity a b = calculateStringSimilarity b a := by
  refine ⟨calculateStringSimilarity_eq a b, ?_, ?_⟩
  · simp [calculateStringSimilarity_eq]
  · rw [calculateStringSimilarity_eq a b, calculateStringSimilarity_eq b a,
      levenshteinDistance_comm a b, max_comm a.length b.length]
    simp only [and_comm]

/-- C10: every string, the empty one included, has similarity `1` with itself. -/
theorem calculateStringSimilarity_self (x : JSString) : calculateStringSimilarity x x = 1 := by
  rw [calculateStringSimilarity_eq, levenshteinDistance_self]
  simp

/-! ## Orchestration -/

theorem endsWith_iff (s suffix : JSString) :
    endsWith s suffix = true ↔ ∃ pre, s = pre ++ suffix := by
  unfold endsWith
  rw [List.isSuffixOf_iff_suffix]
  constructor
  · rintro ⟨pre, h⟩; exact ⟨pre, h.symm⟩
  · rintro ⟨pre, h⟩; exact ⟨pre, h.symm⟩

theorem isWhitelisted_iff (p : Platform) (W : List JSString) (hostname : JSString)
    (hW : p.storedWhitelist = .ok (.array W)) :
    isWhitelisted p hostname = true ↔
      ∃ d ∈ W, hostname = d ∨ ∃ pre, hostname = pre ++ '.' :: d := by
  simp only [isWhitelisted, hW, StoredList.items, bind, Except.bind, pure, Except.pure,
    List.any_eq_true, Bool.or_eq_true, beq_iff_eq, endsWith_iff]

/-- C1: a URL whose hostname equals a whitelisted domain, or ends with a dot followed by
one, is answered `safe`, whatever the rest of the URL, the held and the stored threat
data are, and whether the URL arrives as text or as a `URL` object. -/
theorem analyzeUrl_whitelisted (p : Platform) (threatDatabase : Option ThreatDatabase)
    (input : UrlInput) (u : ParsedUrl) (W : List JSString)
    (hinput : input = .urlObject u ∨ ∃ s, input = .text s ∧ p.parseURL s = some u)
    (hW : p.storedWhitelist = .ok (.array W))
    (hmatch : ∃ d ∈ W, u.hostname = d ∨ ∃ pre, u.hostname = pre ++ '.' :: d) :
    analyzeUrl p threatDatabase input = .ok "safe" := by
  have hwl : isWhitelisted p u.hostname = true := (isWhitelisted_iff p W u.hostname hW).mpr hmatch
  have hparsed : analyzeParsed p threatDatabase u = .ok "safe" := by
    simp [analyzeParsed, hwl]
  rcases hinput with rfl | ⟨s, rfl, hs⟩
  · simp [analyzeUrl, hparsed]
  · simp [analyzeUrl, hs, hparsed]

theorem determineRiskLevel_mem (score : Option ℚ) :
    determineRiskLevel score ∈ ["unknown", "safe", "low", "medium", "high"] := by
  unfold determineRiskLevel
  split_ifs <;> simp

theorem analyzeParsed_mem (p : Platform) (threatDatabase : Option ThreatDatabase)
    (u : ParsedUrl) (level : String) (h : analyzeParsed p threatDatabase u = .ok level) :
    level ∈ ["unknown", "safe", "low", "medium", "high"] := by
  unfold analyzeParsed at h
  by_cases hwl : isWhitelisted p u.hostname = true
  · simp only [hwl, if_true] at h
    cases h
    simp
  · cases hr : runChecks (refreshedDatabase p threatDatabase) u with
    | error e => simp [hwl, hr] at h
    | ok checks =>
      simp only [hwl, hr] at h
      simp only [Bool.false_eq_true, if_false] at h
      cases h
      exact determineRiskLevel_mem _

/-- C2: whatever the input, the held threat data, the parser and the two storage reads
answer (failures of the reads and of detectors included), `analyzeUrl` returns normally,
with one of the five levels. -/
theorem analyzeUrl_total (p : Platform) (threatDatabase : Option ThreatDatabase)
    (input : UrlInput) :
    ∃ level, analyzeUrl p threatDatabase input = .ok level ∧
      level ∈ ["unknown", "safe", "low", "medium", "high"] := by
  have key : ∀ u : ParsedUrl, ∃ level,
      (match analyzeParsed p threatDatabase u with
        | .ok level => (Except.ok level : Except JSError String)
        | .error _ => .ok "unknown") = .ok level ∧
      level ∈ ["unknown", "safe", "low", "medium", "high"] := by
    intro u
    cases h : analyzeParsed p threatDatabase u with
    | error e => exact ⟨"unknown", rfl, by simp⟩
    | ok level => exact ⟨level, rfl, analyzeParsed_mem p threatDatabase u level h⟩
  cases input with
  | urlObject u => simpa [analyzeUrl] using key u
  | text s =>
    cases hs : p.parseURL s with
    | none => exact ⟨"unknown", by simp [analyzeUrl, hs], by simp⟩
    | some u => simpa [analyzeUrl, hs] using key u

/-- C3: text that the URL parser rejects is answered `unknown`, whatever the whitelist
and the threat data are, and the held threat data are left as they were. -/
theorem analyzeUrl_unparseable (p : Platform) (threatDatabase : Option ThreatDatabase)
    (s : JSString) (hs : p.parseURL s = none) :
    analyzeUrl p threatDatabase (.text s) = .ok "unknown" ∧
      databaseAfterAnalyze p threatDatabase (.text s) = threatDatabase := by
  simp [analyzeUrl, databaseAfterAnalyze, hs]

/-! ## The theorems at concrete inputs -/

theorem analyzeUrl_whitelisted_witness :
    (∃ d ∈ ["example.tk".toList],
      sampleUrl.hostname = d ∨ ∃ pre, sampleUrl.hostname = pre ++ '.' :: d) ∧
    analyzeUrl samplePlatform none (.urlObject sampleUrl) = .ok "safe" :=
  have h : ∃ d ∈ ["example.tk".toList],
      sampleUrl.hostname = d ∨ ∃ pre, sampleUrl.hostname = pre ++ '.' :: d :=
    ⟨"example.tk".toList, by simp, Or.inr ⟨"secure-login".toList, by decide⟩⟩
  ⟨h, analyzeUrl_whitelisted samplePlatform none (.urlObject sampleUrl) sampleUrl
    ["example.tk".toList] (Or.inl rfl) rfl h⟩

theorem analyzeUrl_unparseable_witness :
    samplePlatform.parseURL "not a url".toList = none ∧
    analyzeUrl samplePlatform none (.text "not a url".toList) = .ok "unknown" ∧
    databaseAfterAnalyze samplePlatform none (.text "not a url".toList) = none :=
  ⟨rfl, analyzeUrl_unparseable samplePlatform none "not a url".toList rfl⟩

theorem sampleChecks_greatest : IsGreatest {r | ∃ c ∈ sampleChecks, c.risk = r} (100 : ℚ) := by
  constructor
  · exact ⟨_, List.mem_cons_self _ _, rfl⟩
  · rintro r ⟨c, hc, rfl⟩
    simp only [sampleChecks, List.mem_cons, List.mem_singleton, List.not_mem_nil, or_false] at hc
    rcases hc with rfl | rfl <;> norm_num

theorem sampleChecks_range : ∀ c ∈ sampleChecks, 0 ≤ c.risk ∧ c.risk ≤ 100 := by
  intro c hc
  simp only [sampleChecks, List.mem_cons, List.mem_singleton, List.not_mem_nil, or_false] at hc
  rcases hc with rfl | rfl <;> norm_num

theorem calculateRiskScore_formula_witness :
    sampleChecks ≠ [] ∧ (∀ c ∈ sampleChecks, 0 ≤ c.risk) ∧
    IsGreatest {r | ∃ c ∈ sampleChecks, c.risk = r} (100 : ℚ) ∧
    calculateRiskScore sampleChecks =
      some (if sampleChecks.countP (fun c => decide (c.risk ≥ 80)) ≤ 1 then
          (sampleChecks.map (fun c => c.risk)).sum / (sampleChecks.length : ℚ) * 0.6 + 100 * 0.4
        else
          min 100 ((sampleChecks.map (fun c => c.risk)).sum / (sampleChecks.length : ℚ) * 0.6
            + 100 * 0.4
            + 10 * ((sampleChecks.countP (fun c => decide (c.risk ≥ 80)) : ℕ) : ℚ))) :=
  ⟨by simp [sampleChecks], fun c hc => (sampleChecks_range c hc).1, sampleChecks_greatest,
    calculateRiskScore_formula sampleChecks (by simp [sampleChecks])
      (fun c hc => (sampleChecks_range c hc).1) 100 sampleChecks_greatest⟩

theorem calculateRiskScore_range_witness :
    sampleChecks ≠ [] ∧ (∀ c ∈ sampleChecks, 0 ≤ c.risk ∧ c.risk ≤ 100) ∧
    ∃ s, calculateRiskScore sampleChecks = some s ∧ 0 ≤ s ∧ s ≤ 100 :=
  ⟨by simp [sampleChecks], sampleChecks_range,
    calculateRiskScore_range sampleChecks (by simp [sampleChecks]) sampleChecks_range⟩

theorem calculateRiskScore_monotone_witness :
    ∃ s s', calculateRiskScore sampleChecks = some s ∧
      calculateRiskScore
        (sampleChecks.set 1 { type := "sslStatus", risk := 90, details := none }) = some s' ∧
      s ≤ s' :=
  calculateRiskScore_monotone sampleChecks (by simp [sampleChecks]) sampleChecks_range 1
    (by simp [sampleChecks]) 90 (by norm_num) (by simp [sampleChecks]; norm_num)

/-! ## Bounds on the similarity -/

theorem editDistance_le_max (a b : JSString) :
    editDistance a b ≤ max a.length b.length := by
  induction a generalizing b with
  | nil => simp [editDistance_nil_left]
  | cons x a ih =>
    cases b with
    | nil => simp [editDistance_nil_right]
    | cons y b =>
      rw [editDistance_cons_cons]
      have h := ih b
      simp only [List.length_cons]
      split_ifs <;> omega

theorem levenshteinDistance_le_max (a b : JSString) :
    levenshteinDistance a b ≤ max a.length b.length := by
  rw [levenshteinDistance_eq_editDistance]
  exact editDistance_le_max a b

/-- C11: the similarity of any two strings lies between `0` and `1`, and the distance
computed by `levenshteinDistance` never exceeds the length of the longer string. -/
theorem calculateStringSimilarity_bounds (a b : JSString) :
    0 ≤ calculateStringSimilarity a b ∧ calculateStringSimilarity a b ≤ 1 ∧
      levenshteinDistance a b ≤ max a.length b.length := by
  have hle := levenshteinDistance_le_max a b
  have hleq : (levenshteinDistance a b : ℚ) ≤ ((max a.length b.length : ℕ) : ℚ) := by
    exact_mod_cast hle
  have h0 : (0 : ℚ) ≤ (levenshteinDistance a b : ℚ) := Nat.cast_nonneg _
  rw [calculateStringSimilarity_eq]
  by_cases hab : a = [] ∧ b = []
  · simp [hab, levenshteinDistance_self]
  · simp only [hab, if_false]
    have hpos : 0 < max a.length b.length := by
      rcases not_and_or.mp hab with h | h
      · exact lt_max_of_lt_left (List.length_pos.mpr h)
      · exact lt_max_of_lt_right (List.length_pos.mpr h)
    have hposq : (0 : ℚ) < ((max a.length b.length : ℕ) : ℚ) := by exact_mod_cast hpos
    have h1 : (levenshteinDistance a b : ℚ) / ((max a.length b.length : ℕ) : ℚ) ≤ 1 := by
      rw [div_le_one hposq]; exact hleq
    have h2 : 0 ≤ (levenshteinDistance a b : ℚ) / ((max a.length b.length : ℕ) : ℚ) :=
      div_nonneg h0 hposq.le
    refine ⟨by linarith, by linarith, hle⟩

/-! ## The look-alike transform -/

theorem includes_iff (s sub : JSString) :
    includes s sub = true ↔ ∃ p t, s = p ++ sub ++ t := by
  unfold includes
  simp only [List.any_eq_true, List.mem_tails, List.isPrefixOf_iff_prefix]
  constructor
  · rintro ⟨x, ⟨p, hp⟩, ⟨t, ht⟩⟩
    exact ⟨p, t, by rw [← hp, ← ht, List.append_assoc]⟩
  · rintro ⟨p, t, h⟩
    exact ⟨sub ++ t, ⟨p, by rw [h, List.append_assoc]⟩, ⟨t, rfl⟩⟩

theorem replaceAll_eq_map (s : JSString) (original substitute : Char) :
    replaceAll s original substitute = s.map (replaceChar original substitute) := rfl

theorem replaceChar_sequence (c : Char) :
    replaceChar 'g' '9' (replaceChar 's' '$' (replaceChar 'a' '@' (replaceChar 'e' '3'
      (replaceChar 'l' '1' (replaceChar 'i' '1' (replaceChar 'o' '0' c)))))) = lookAlike c := by
  by_cases ho : c = 'o'
  · subst ho; rfl
  by_cases hi : c = 'i'
  · subst hi; rfl
  by_cases hl : c = 'l'
  · subst hl; rfl
  by_cases he : c = 'e'
  · subst he; rfl
  by_cases ha : c = 'a'
  · subst ha; rfl
  by_cases hs : c = 's'
  · subst hs; rfl
  by_cases hg : c = 'g'
  · subst hg; rfl
  simp only [replaceChar, lookAlike, ho, hi, hl, he, ha, hs, hg, if_false]

theorem substituteLegit_eq (legitimate : JSString) :
    substituteLegit legitimate = simultaneousTransform legitimate := by
  have h : substituteLegit legitimate =
      replaceAll (replaceAll (replaceAll (replaceAll (replaceAll (replaceAll
        (replaceAll legitimate 'o' '0') 'i' '1') 'l' '1') 'e' '3') 'a' '@') 's' '$') 'g' '9' := by
    simp only [substituteLegit, substitutions, List.foldl]
  rw [h]
  simp only [replaceAll_eq_map, List.map_map, simultaneousTransform]
  apply List.map_congr_left
  intro c _
  simp only [Function.comp_apply]
  exact replaceChar_sequence c

/-- C12: `isCharacterSubstitution(candidate, legitimate)` holds exactly when the candidate
contains the simultaneous look-alike transform of `legitimate` as a substring or is more
than `0.8` similar to it; the seven sequential replacements of the code build exactly that
transform. -/
theorem isCharacterSubstitution_iff (candidate legitimate : JSString) :
    (isCharacterSubstitution candidate legitimate = true ↔
      (∃ p s, candidate = p ++ simultaneousTransform legitimate ++ s) ∨
        calculateStringSimilarity candidate (simultaneousTransform legitimate) > 0.8) ∧
    substituteLegit legitimate = simultaneousTransform legitimate := by
  refine ⟨?_, substituteLegit_eq legitimate⟩
  simp only [isCharacterSubstitution, substituteLegit_eq, Bool.or_eq_true, includes_iff,
    decide_eq_true_eq]

/-- C13: a candidate that contains the look-alike transform of `legitimate` anywhere is
reported by `isCharacterSubstitution`; in particular each of the seven substitution
letters is reported against its own stand-in. -/
theorem isCharacterSubstitution_of_contains (legitimate p s : JSString) :
    isCharacterSubstitution (p ++ simultaneousTransform legitimate ++ s) legitimate = true ∧
    (∀ c ∈ ['o', 'i', 'l', 'e', 'a', 's', 'g'],
      isCharacterSubstitution (simultaneousTransform [c]) [c] = true) := by
  have key : ∀ (l p s : JSString),
      isCharacterSubstitution (p ++ simultaneousTransform l ++ s) l = true := by
    intro l p s
    simp only [isCharacterSubstitution, substituteLegit_eq, Bool.or_eq_true, includes_iff]
    exact Or.inl ⟨p, s, rfl⟩
  refine ⟨key legitimate p s, ?_⟩
  intro c _
  simpa using key [c] [] []

/-! ## The similarity tests in integer form -/

theorem one_sub_div_gt_08 (d m : ℚ) (hm : 0 < m) : 1 - d / m > 0.8 ↔ 5 * d < m := by
  rw [gt_iff_lt, lt_sub_comm, div_lt_iff₀ hm]
  constructor <;> intro h <;> norm_num at h ⊢ <;> linarith

theorem one_sub_div_gt_07 (d m : ℚ) (hm : 0 < m) : 1 - d / m > 0.7 ↔ 10 * d < 3 * m := by
  rw [gt_iff_lt, lt_sub_comm, div_lt_iff₀ hm]
  constructor <;> intro h <;> norm_num at h ⊢ <;> linarith

theorem one_sub_div_lt_one (d m : ℚ) (hm : 0 < m) : 1 - d / m < 1.0 ↔ 0 < d := by
  have hd : 0 < d / m ↔ 0 < d := div_pos_iff_of_pos_right hm
  rw [← hd]
  constructor <;> intro h <;> norm_num at h ⊢ <;> linarith

theorem max_length_pos {a b : JSString} (hab : ¬(a = [] ∧ b = [])) :
    0 < max a.length b.length := by
  rcases not_and_or.mp hab with h | h
  · exact lt_max_of_lt_left (List.length_pos.mpr h)
  · exact lt_max_of_lt_right (List.length_pos.mpr h)

theorem similarity_gt_08_iff (a b : JSString) :
    calculateStringSimilarity a b > 0.8 ↔ similarityAbove08 a b = true := by
  rw [calculateStringSimilarity_eq]
  simp only [similarityAbove08, decide_eq_true_eq]
  by_cases hab : a = [] ∧ b = []
  · simp only [hab, and_self, if_true, List.length_nil, max_self, true_or, iff_true]
    norm_num
  · have hpos := max_length_pos hab
    have hposq : (0 : ℚ) < ((max a.length b.length : ℕ) : ℚ) := by exact_mod_cast hpos
    have hne : max a.length b.length ≠ 0 := by omega
    simp only [hab, if_false, hne, false_or]
    rw [one_sub_div_gt_08 _ _ hposq]
    exact_mod_cast Iff.rfl

theorem similarity_nearMiss_iff (a b : JSString) :
    (calculateStringSimilarity a b > 0.7 ∧ calculateStringSimilarity a b < 1.0) ↔
      similarityNearMiss a b = true := by
  rw [calculateStringSimilarity_eq]
  simp only [similarityNearMiss, Bool.and_eq_true, decide_eq_true_eq]
  by_cases hab : a = [] ∧ b = []
  · simp only [hab, and_self, if_true, levenshteinDistance_self, lt_self_iff_false, and_false,
      iff_false, not_and]
    intro _
    norm_num
  · have hpos := max_length_pos hab
    have hposq : (0 : ℚ) < ((max a.length b.length : ℕ) : ℚ) := by exact_mod_cast hpos
    simp only [hab, if_false]
    rw [one_sub_div_gt_07 _ _ hposq, one_sub_div_lt_one _ _ hposq]
    exact_mod_cast Iff.rfl

theorem isCharacterSubstitution_eq (suspicious legitimate : JSString) :
    isCharacterSubstitution suspicious legitimate =
      (includes suspicious (substituteLegit legitimate) ||
        similarityAbove08 suspicious (substituteLegit legitimate)) := by
  simp only [isCharacterSubstitution, similarity_gt_08_iff]
  cases similarityAbove08 suspicious (substituteLegit legitimate) <;> simp

theorem scanLegitimate_eq (hostname : JSString) (domains : List String) :
    scanLegitimate hostname domains = scanLegitimateNat hostname domains := by
  induction domains with
  | nil => rfl
  | cons legit rest ih =>
    simp only [scanLegitimate, scanLegitimateNat, similarity_nearMiss_iff,
      isCharacterSubstitution_eq, ih]

/-! ## Running the detectors -/

theorem checkKnownPhishingDomains_empty (url : ParsedUrl) :
    checkKnownPhishingDomains emptyDatabase url =
      .ok { type := "knownPhishing", risk := 0, details := none } := by
  simp [checkKnownPhishingDomains, emptyDatabase, StoredList.items, bind, Except.bind, pure,
    Except.pure]

theorem checkUrlShorteners_empty (url : ParsedUrl) :
    checkUrlShorteners emptyDatabase url =
      .ok { type := "urlShortener", risk := 0, details := none } := by
  simp [checkUrlShorteners, emptyDatabase, StoredList.items, bind, Except.bind, pure,
    Except.pure]

theorem runChecks_of_ok (db : ThreatDatabase) (url : ParsedUrl) (k c : CheckResult)
    (hk : checkKnownPhishingDomains db url = .ok k) (hc : checkUrlShorteners db url = .ok c) :
    runChecks db url = .ok [k, checkSuspiciousPatterns url, c, checkDomainReputation url,
      checkSSLStatus url, checkUrlStructure url, checkTyposquatting url] := by
  simp [runChecks, hk, hc, bind, Except.bind, pure, Except.pure]

theorem runChecks_empty (url : ParsedUrl) :
    runChecks emptyDatabase url =
      .ok [{ type := "knownPhishing", risk := 0, details := none },
        checkSuspiciousPatterns url,
        { type := "urlShortener", risk := 0, details := none },
        checkDomainReputation url, checkSSLStatus url, checkUrlStructure url,
        checkTyposquatting url] :=
  runChecks_of_ok _ _ _ _ (checkKnownPhishingDomains_empty url) (checkUrlShorteners_empty url)

theorem runChecks_error (db : ThreatDatabase) (url : ParsedUrl)
    (h : (∃ e, checkKnownPhishingDomains db url = .error e) ∨
      (∃ e, checkUrlShorteners db url = .error e)) :
    ∃ e, runChecks db url = .error e := by
  rcases h with ⟨e, he⟩ | ⟨e, he⟩
  · exact ⟨e, by simp [runChecks, he, bind, Except.bind]⟩
  · cases hk : checkKnownPhishingDomains db url with
    | error e' => exact ⟨e', by simp [runChecks, hk, bind, Except.bind]⟩
    | ok k => exact ⟨e, by simp [runChecks, hk, he, bind, Except.bind]⟩

theorem checkTyposquatting_risk (url : ParsedUrl) :
    (checkTyposquatting url).risk =
      ((scanLegitimateNat (toLowerCase url.hostname) legitimateDomains).riskScore : ℚ) := by
  simp [checkTyposquatting, scanLegitimate_eq]

theorem isWhitelisted_empty (p : Platform) (hostname : JSString)
    (hW : p.storedWhitelist = .ok (.array [])) : isWhitelisted p hostname = false := by
  simp [isWhitelisted, hW, StoredList.items, bind, Except.bind, pure, Except.pure]

/-- What `analyzeUrl` answers for a URL that is not whitelisted, from the outcome of the
detectors and the aggregation. -/
theorem analyzeUrl_of_aggregateScore (p : Platform) (threatDatabase : Option ThreatDatabase)
    (input : UrlInput) (u : ParsedUrl)
    (hinput : input = .urlObject u ∨ ∃ s, input = .text s ∧ p.parseURL s = some u)
    (hwl : isWhitelisted p u.hostname = false) :
    analyzeUrl p threatDatabase input =
      match aggregateScore (refreshedDatabase p threatDatabase) u with
      | .ok score => .ok (determineRiskLevel score)
      | .error _ => .ok "unknown" := by
  have hp : analyzeParsed p threatDatabase u =
      match aggregateScore (refreshedDatabase p threatDatabase) u with
      | .ok score => .ok (determineRiskLevel score)
      | .error e => .error e := by
    simp only [analyzeParsed, hwl, aggregateScore]
    cases runChecks (refreshedDatabase p threatDatabase) u <;> simp
  have hfinal : (match analyzeParsed p threatDatabase u with
      | .ok level => (Except.ok level : Except JSError String)
      | .error _ => .ok "unknown") =
      match aggregateScore (refreshedDatabase p threatDatabase) u with
      | .ok score => .ok (determineRiskLevel score)
      | .error _ => .ok "unknown" := by
    rw [hp]
    cases aggregateScore (refreshedDatabase p threatDatabase) u <;> rfl
  rcases hinput with rfl | ⟨s, rfl, hs⟩
  · simpa [analyzeUrl] using hfinal
  · simpa [analyzeUrl, hs] using hfinal

/-! ## The scenario URLs -/

theorem ipLoginUrl_risks :
    (checkSuspiciousPatterns ipLoginUrl).risk = 100 ∧ (checkDomainReputation ipLoginUrl).risk = 0 ∧
    (checkSSLStatus ipLoginUrl).risk = 40 ∧ (checkUrlStructure ipLoginUrl).risk = 0 ∧
    (checkTyposquatting ipLoginUrl).risk = 0 := by
  refine ⟨by decide, by decide, by decide, by decide, ?_⟩
  rw [checkTyposquatting_risk]
  have h : (scanLegitimateNat (toLowerCase ipLoginUrl.hostname) legitimateDomains).riskScore = 0 := by
    decide
  rw [h]; rfl

theorem aggregateScore_ipLoginUrl :
    aggregateScore emptyDatabase ipLoginUrl = .ok (some 52) := by
  obtain ⟨h2, h4, h5, h6, h7⟩ := ipLoginUrl_risks
  simp only [aggregateScore, runChecks_empty, calculateRiskScore, List.foldl, accumulate,
    h2, h4, h5, h6, h7]
  norm_num

theorem determineRiskLevel_ne_unknown (score : Option ℚ) :
    determineRiskLevel score ≠ "unknown" := by
  unfold determineRiskLevel
  split_ifs <;> decide

theorem refreshedDatabase_scenarioPlatform :
    refreshedDatabase scenarioPlatform none = emptyDatabase := rfl

/-- C18 (as stated, refuted): for `http://192.168.1.1/login?redirect=1` with an empty
snapshot and an empty whitelist the aggregate score is not at least 80 and the level is not
`high`. -/
theorem ipLoginUrl_not_high :
    ¬ ((∃ s, aggregateScore (refreshedDatabase scenarioPlatform none) ipLoginUrl = .ok (some s) ∧
          80 ≤ s) ∨
      analyzeUrl scenarioPlatform none (.urlObject ipLoginUrl) = .ok "high") := by
  rw [analyzeUrl_of_aggregateScore scenarioPlatform none _ ipLoginUrl (Or.inl rfl)
    (isWhitelisted_empty _ _ rfl), refreshedDatabase_scenarioPlatform, aggregateScore_ipLoginUrl]
  rintro (⟨s, hs, h80⟩ | h)
  · cases hs
    norm_num at h80
  · have hm : determineRiskLevel (some 52) = "medium" := by decide
    simp only [hm] at h
    exact absurd (Except.ok.inj h) (by decide)

/-- C18 (amended): for `http://192.168.1.1/login?redirect=1` with an empty snapshot and an
empty whitelist, `checkSuspiciousPatterns` reports 100 and `checkSSLStatus` 40, the other
five detectors report 0, the aggregate score is 52 and `analyzeUrl` returns `medium`. -/
theorem analyzeUrl_ipLoginUrl (p : Platform) (threatDatabase : Option ThreatDatabase)
    (input : UrlInput)
    (hinput : input = .urlObject ipLoginUrl ∨
      ∃ s, input = .text s ∧ p.parseURL s = some ipLoginUrl)
    (hW : p.storedWhitelist = .ok (.array []))
    (hdb : refreshedDatabase p threatDatabase = emptyDatabase) :
    (∃ checks, runChecks (refreshedDatabase p threatDatabase) ipLoginUrl = .ok checks ∧
      checks.map (fun c => c.risk) = [0, 100, 0, 0, 40, 0, 0]) ∧
    aggregateScore (refreshedDatabase p threatDatabase) ipLoginUrl = .ok (some 52) ∧
    analyzeUrl p threatDatabase input = .ok "medium" := by
  obtain ⟨h2, h4, h5, h6, h7⟩ := ipLoginUrl_risks
  refine ⟨⟨_, by rw [hdb]; exact runChecks_empty _, by simp [h2, h4, h5, h6, h7]⟩, ?_, ?_⟩
  · rw [hdb]; exact aggregateScore_ipLoginUrl
  · rw [analyzeUrl_of_aggregateScore p threatDatabase input ipLoginUrl hinput
      (isWhitelisted_empty _ _ hW), hdb, aggregateScore_ipLoginUrl]
    have hm : determineRiskLevel (some 52) = "medium" := by decide
    simp only [hm]

theorem analyzeUrl_ipLoginUrl_witness :
    scenarioPlatform.storedWhitelist = .ok (.array []) ∧
    refreshedDatabase scenarioPlatform none = emptyDatabase ∧
    analyzeUrl scenarioPlatform none (.text "http://192.168.1.1/login?redirect=1".toList) =
      .ok "medium" :=
  ⟨rfl, rfl, (analyzeUrl_ipLoginUrl scenarioPlatform none
    (.text "http://192.168.1.1/login?redirect=1".toList)
    (Or.inr ⟨_, rfl, by simp [scenarioPlatform, ipLoginUrl]⟩) rfl rfl).2.2⟩

theorem googleUrl_risks :
    (checkSuspiciousPatterns googleUrl).risk = 0 ∧ (checkDomainReputation googleUrl).risk = 0 ∧
    (checkSSLStatus googleUrl).risk = 0 ∧ (checkUrlStructure googleUrl).risk = 0 ∧
    (checkTyposquatting googleUrl).risk = 80 ∧
    (checkTyposquatting googleUrl).details = some "Possible typosquatting of google.com" := by
  refine ⟨by decide, by decide, by decide, by decide, ?_, ?_⟩
  · rw [checkTyposquatting_risk]
    have h : (scanLegitimateNat (toLowerCase googleUrl.hostname) legitimateDomains).riskScore
        = 80 := by decide
    rw [h]; rfl
  · have h : (scanLegitimateNat (toLowerCase googleUrl.hostname) legitimateDomains).details
        = ["Possible typosquatting of google.com"] := by decide
    simp only [checkTyposquatting, scanLegitimate_eq, h]
    decide

theorem aggregateScore_googleUrl (db : ThreatDatabase) (k c : CheckResult)
    (hk : checkKnownPhishingDomains db googleUrl = .ok k) (hk0 : k.risk = 0)
    (hc : checkUrlShorteners db googleUrl = .ok c) (hc0 : c.risk = 0) :
    aggregateScore db googleUrl = .ok (some (272 / 7)) := by
  obtain ⟨h2, h4, h5, h6, h7, -⟩ := googleUrl_risks
  simp only [aggregateScore, runChecks_of_ok db googleUrl k c hk hc, calculateRiskScore,
    List.foldl, accumulate, hk0, hc0, h2, h4, h5, h6, h7]
  norm_num

theorem determineRiskLevel_googleUrl : determineRiskLevel (some (272 / 7)) = "low" := by
  simp only [determineRiskLevel, scoreGe]
  norm_num

/-- C19 (as stated, refuted): for `https://www.google.com/` with an empty snapshot and an
empty whitelist it is not so that all seven detectors report 0, nor that the aggregate
score is 0, nor that `analyzeUrl` returns `safe`. -/
theorem googleUrl_not_safe :
    ¬ ((∃ checks, runChecks (refreshedDatabase scenarioPlatform none) googleUrl = .ok checks ∧
          ∀ c ∈ checks, c.risk = 0) ∨
      aggregateScore (refreshedDatabase scenarioPlatform none) googleUrl = .ok (some 0) ∨
      analyzeUrl scenarioPlatform none (.urlObject googleUrl) = .ok "safe") := by
  have hs := aggregateScore_googleUrl emptyDatabase _ _ (checkKnownPhishingDomains_empty _) rfl
    (checkUrlShorteners_empty _) rfl
  rw [analyzeUrl_of_aggregateScore scenarioPlatform none _ googleUrl (Or.inl rfl)
    (isWhitelisted_empty _ _ rfl), refreshedDatabase_scenarioPlatform, hs]
  rintro (⟨checks, hr, h0⟩ | h | h)
  · rw [runChecks_empty] at hr
    cases hr
    have := h0 (checkTyposquatting googleUrl) (by simp)
    rw [googleUrl_risks.2.2.2.2.1] at this
    norm_num at this
  · have := Option.some.inj (Except.ok.inj h)
    norm_num at this
  · simp only [determineRiskLevel_googleUrl] at h
    exact absurd (Except.ok.inj h) (by decide)

/-- C19 (amended): for `https://www.google.com/` with an empty whitelist and a snapshot in
which neither the phishing list nor the shortener list matches, `checkTyposquatting`
reports 80 (`www.google.com` is more than 0.7 similar to `google.com`), the other six
detectors report 0, the aggregate score is `272 / 7` and `analyzeUrl` returns `low`. -/
theorem analyzeUrl_googleUrl (p : Platform) (threatDatabase : Option ThreatDatabase)
    (input : UrlInput) (k c : CheckResult)
    (hinput : input = .urlObject googleUrl ∨
      ∃ s, input = .text s ∧ p.parseURL s = some googleUrl)
    (hW : p.storedWhitelist = .ok (.array []))
    (hk : checkKnownPhishingDomains (refreshedDatabase p threatDatabase) googleUrl = .ok k)
    (hk0 : k.risk = 0)
    (hc : checkUrlShorteners (refreshedDatabase p threatDatabase) googleUrl = .ok c)
    (hc0 : c.risk = 0) :
    (∃ checks, runChecks (refreshedDatabase p threatDatabase) googleUrl = .ok checks ∧
      checks.map (fun c => c.risk) = [0, 0, 0, 0, 0, 0, 80]) ∧
    calculateStringSimilarity "www.google.com".toList "google.com".toList = 5 / 7 ∧
    aggregateScore (refreshedDatabase p threatDatabase) googleUrl = .ok (some (272 / 7)) ∧
    analyzeUrl p threatDatabase input = .ok "low" := by
  obtain ⟨h2, h4, h5, h6, h7, -⟩ := googleUrl_risks
  have hs := aggregateScore_googleUrl _ k c hk hk0 hc hc0
  refine ⟨⟨_, runChecks_of_ok _ _ k c hk hc, by simp [hk0, hc0, h2, h4, h5, h6, h7]⟩, ?_, hs, ?_⟩
  · have hd : levenshteinDistance "www.google.com".toList "google.com".toList = 4 := by decide
    have hne : ¬("www.google.com".toList = [] ∧ "google.com".toList = []) := by decide
    rw [calculateStringSimilarity_eq, if_neg hne, hd]
    norm_num
  · rw [analyzeUrl_of_aggregateScore p threatDatabase input googleUrl hinput
      (isWhitelisted_empty _ _ hW), hs]
    simp only [determineRiskLevel_googleUrl]

theorem analyzeUrl_googleUrl_witness :
    scenarioPlatform.storedWhitelist = .ok (.array []) ∧
    analyzeUrl scenarioPlatform none (.urlObject googleUrl) = .ok "low" :=
  ⟨rfl, (analyzeUrl_googleUrl scenarioPlatform none (.urlObject googleUrl) _ _ (Or.inl rfl) rfl
    (checkKnownPhishingDomains_empty _) rfl (checkUrlShorteners_empty _) rfl).2.2.2⟩

set_option maxRecDepth 100000 in
theorem paypalUrl_risks :
    (checkSuspiciousPatterns paypalUrl).risk = 90 ∧ (checkDomainReputation paypalUrl).risk = 0 ∧
    (checkSSLStatus paypalUrl).risk = 0 ∧ (checkUrlStructure paypalUrl).risk = 0 ∧
    (checkTyposquatting paypalUrl).risk = 0 := by
  refine ⟨by decide, by decide, by decide, by decide, ?_⟩
  rw [checkTyposquatting_risk]
  have h : (scanLegitimateNat (toLowerCase paypalUrl.hostname) legitimateDomains).riskScore
      = 0 := by decide
  rw [h]; rfl

theorem aggregateScore_paypalUrl :
    aggregateScore emptyDatabase paypalUrl = .ok (some (306 / 7)) := by
  obtain ⟨h2, h4, h5, h6, h7⟩ := paypalUrl_risks
  simp only [aggregateScore, runChecks_empty, calculateRiskScore, List.foldl, accumulate,
    h2, h4, h5, h6, h7]
  norm_num

theorem determineRiskLevel_paypalUrl : determineRiskLevel (some (306 / 7)) = "low" := by
  simp only [determineRiskLevel, scoreGe]
  norm_num

theorem paypalUrl_critical_count :
    ([{ type := "knownPhishing", risk := 0, details := none },
        checkSuspiciousPatterns paypalUrl,
        { type := "urlShortener", risk := 0, details := none },
        checkDomainReputation paypalUrl, checkSSLStatus paypalUrl, checkUrlStructure paypalUrl,
        checkTyposquatting paypalUrl] : List CheckResult).countP
      (fun c => decide (c.risk ≥ 80)) = 1 := by
  obtain ⟨h2, h4, h5, h6, h7⟩ := paypalUrl_risks
  simp only [List.countP_cons, List.countP_nil, h2, h4, h5, h6, h7]
  norm_num

/-- C20 (as stated, refuted): for `https://paypal-secure-login-verify.tk/` with an empty
snapshot and an empty whitelist fewer than two detector results have risk at least 80, and
`analyzeUrl` does not return `high`. -/
theorem paypalUrl_not_high :
    ¬ ((∃ checks, runChecks (refreshedDatabase scenarioPlatform none) paypalUrl = .ok checks ∧
          2 ≤ checks.countP (fun c => decide (c.risk ≥ 80))) ∨
      analyzeUrl scenarioPlatform none (.urlObject paypalUrl) = .ok "high") := by
  rw [analyzeUrl_of_aggregateScore scenarioPlatform none _ paypalUrl (Or.inl rfl)
    (isWhitelisted_empty _ _ rfl), refreshedDatabase_scenarioPlatform, aggregateScore_paypalUrl]
  rintro (⟨checks, hr, h2⟩ | h)
  · rw [runChecks_empty] at hr
    cases hr
    rw [paypalUrl_critical_count] at h2
    omega
  · simp only [determineRiskLevel_paypalUrl] at h
    exact absurd (Except.ok.inj h) (by decide)

/-- C20 (amended): for `https://paypal-secure-login-verify.tk/` with an empty snapshot and
an empty whitelist only `checkSuspiciousPatterns` fires (90: suspicious top-level domain
and two keywords; three hyphens are not more than three), so exactly one result has risk
at least 80, the critical-issue bonus is not applied, the aggregate score is `306 / 7` and
`analyzeUrl` returns `low`. -/
theorem analyzeUrl_paypalUrl (p : Platform) (threatDatabase : Option ThreatDatabase)
    (input : UrlInput)
    (hinput : input = .urlObject paypalUrl ∨
      ∃ s, input = .text s ∧ p.parseURL s = some paypalUrl)
    (hW : p.storedWhitelist = .ok (.array []))
    (hdb : refreshedDatabase p threatDatabase = emptyDatabase) :
    (∃ checks, runChecks (refreshedDatabase p threatDatabase) paypalUrl = .ok checks ∧
      checks.map (fun c => c.risk) = [0, 90, 0, 0, 0, 0, 0] ∧
      checks.countP (fun c => decide (c.risk ≥ 80)) = 1) ∧
    aggregateScore (refreshedDatabase p threatDatabase) paypalUrl = .ok (some (306 / 7)) ∧
    analyzeUrl p threatDatabase input = .ok "low" := by
  obtain ⟨h2, h4, h5, h6, h7⟩ := paypalUrl_risks
  refine ⟨⟨_, by rw [hdb]; exact runChecks_empty _, by simp [h2, h4, h5, h6, h7],
    paypalUrl_critical_count⟩, ?_, ?_⟩
  · rw [hdb]; exact aggregateScore_paypalUrl
  · rw [analyzeUrl_of_aggregateScore p threatDatabase input paypalUrl hinput
      (isWhitelisted_empty _ _ hW), hdb, aggregateScore_paypalUrl]
    simp only [determineRiskLevel_paypalUrl]

theorem analyzeUrl_paypalUrl_witness :
    scenarioPlatform.storedWhitelist = .ok (.array []) ∧
    refreshedDatabase scenarioPlatform none = emptyDatabase ∧
    analyzeUrl scenarioPlatform none (.urlObject paypalUrl) = .ok "low" :=
  ⟨rfl, rfl, (analyzeUrl_paypalUrl scenarioPlatform none (.urlObject paypalUrl)
    (Or.inl rfl) rfl rfl).2.2⟩

/-! ## Risks above 100 -/

/-- C14 (failing input): for `http://example.org/?password=1&next=data:x`
`checkUrlStructure` adds 40 for the parameter name and 90 for the `data:` marker and
returns the risk 130, which is not in `[0, 100]`. -/
theorem checkUrlStructure_dataParamUrl :
    (checkUrlStructure dataParamUrl).risk = 130 ∧ ¬ (checkUrlStructure dataParamUrl).risk ≤ 100 := by
  have h : (checkUrlStructure dataParamUrl).risk = 130 := by decide
  refine ⟨h, ?_⟩
  rw [h]
  norm_num

set_option maxRecDepth 100000 in
theorem overflowUrl_risks :
    (checkSuspiciousPatterns overflowUrl).risk = 75 ∧
    (checkDomainReputation overflowUrl).risk = 60 ∧
    (checkSSLStatus overflowUrl).risk = 40 ∧ (checkUrlStructure overflowUrl).risk = 185 ∧
    (checkTyposquatting overflowUrl).risk = 0 := by
  refine ⟨by decide, by decide, by decide, by decide, ?_⟩
  rw [checkTyposquatting_risk]
  have h : (scanLegitimateNat (toLowerCase overflowUrl.hostname) legitimateDomains).riskScore
      = 0 := by decide
  rw [h]; rfl

/-- C15 (failing input): for `overflowUrl` with an empty snapshot and an empty whitelist
the seven risks are 0, 75, 0, 60, 40, 185, 0; only one of them is critical, so the blend is
returned without the cap and the aggregate score is `734 / 7`, which is above 100. -/
theorem aggregateScore_overflowUrl :
    (∃ checks, runChecks emptyDatabase overflowUrl = .ok checks ∧
      checks.map (fun c => c.risk) = [0, 75, 0, 60, 40, 185, 0]) ∧
    aggregateScore emptyDatabase overflowUrl = .ok (some (734 / 7)) ∧
    (100 : ℚ) < 734 / 7 ∧
    analyzeUrl scenarioPlatform none (.urlObject overflowUrl) = .ok "high" := by
  obtain ⟨h2, h4, h5, h6, h7⟩ := overflowUrl_risks
  have hs : aggregateScore emptyDatabase overflowUrl = .ok (some (734 / 7)) := by
    simp only [aggregateScore, runChecks_empty, calculateRiskScore, List.foldl, accumulate,
      h2, h4, h5, h6, h7]
    norm_num
  refine ⟨⟨_, runChecks_empty _, by simp [h2, h4, h5, h6, h7]⟩, hs, by norm_num, ?_⟩
  rw [analyzeUrl_of_aggregateScore scenarioPlatform none _ overflowUrl (Or.inl rfl)
    (isWhitelisted_empty _ _ rfl), refreshedDatabase_scenarioPlatform, hs]
  have hm : determineRiskLevel (some (734 / 7)) = "high" := by
    simp only [determineRiskLevel, scoreGe]
    norm_num
  simp only [hm]

/-! ## Failing detectors and failing refreshes -/

theorem checkKnownPhishingDomains_broken (url : ParsedUrl) :
    checkKnownPhishingDomains brokenDatabase url = .error .typeError := by
  simp [checkKnownPhishingDomains, brokenDatabase, StoredList.items, bind, Except.bind]

/-- C16 (as stated, refuted): with a stored `phishingDomains` that is not an array,
`checkKnownPhishingDomains` fails on `http://192.168.1.1/login?redirect=1` while the six
other detectors answer; a zero-risk result in its place would aggregate with theirs to
`medium`, but `analyzeUrl` returns `unknown`. -/
theorem analyzeUrl_brokenDatabase_unknown :
    checkKnownPhishingDomains (refreshedDatabase brokenPlatform none) ipLoginUrl =
      .error .typeError ∧
    checkUrlShorteners (refreshedDatabase brokenPlatform none) ipLoginUrl =
      .ok { type := "urlShortener", risk := 0, details := none } ∧
    isWhitelisted brokenPlatform ipLoginUrl.hostname = false ∧
    determineRiskLevel (calculateRiskScore substitutedChecks) = "medium" ∧
    analyzeUrl brokenPlatform none (.urlObject ipLoginUrl) = .ok "unknown" ∧
    analyzeUrl brokenPlatform none (.urlObject ipLoginUrl) ≠
      .ok (determineRiskLevel (calculateRiskScore substitutedChecks)) := by
  have hdb : refreshedDatabase brokenPlatform none = brokenDatabase := rfl
  have hwl : isWhitelisted brokenPlatform ipLoginUrl.hostname = false :=
    isWhitelisted_empty _ _ rfl
  have hmed : determineRiskLevel (calculateRiskScore substitutedChecks) = "medium" := by
    have hs := aggregateScore_ipLoginUrl
    simp only [aggregateScore, runChecks_empty] at hs
    rw [substitutedChecks, Except.ok.inj hs]
    decide
  have hunk : analyzeUrl brokenPlatform none (.urlObject ipLoginUrl) = .ok "unknown" := by
    obtain ⟨e, he⟩ := runChecks_error brokenDatabase ipLoginUrl
      (Or.inl ⟨_, checkKnownPhishingDomains_broken _⟩)
    rw [analyzeUrl_of_aggregateScore brokenPlatform none _ ipLoginUrl (Or.inl rfl) hwl, hdb]
    simp [aggregateScore, he]
  refine ⟨by rw [hdb]; exact checkKnownPhishingDomains_broken _, ?_, hwl, hmed, hunk, ?_⟩
  · rw [hdb]
    simp [checkUrlShorteners, brokenDatabase, StoredList.items, bind, Except.bind, pure,
      Except.pure]
  · rw [hunk, hmed]
    intro h
    exact absurd (Except.ok.inj h) (by decide)

/-- C16 (amended): for a parseable URL that is not whitelisted, when a detector fails
`analyzeUrl` does not propagate the error and returns `unknown`; no result is substituted
and nothing is aggregated. -/
theorem analyzeUrl_detector_failure (p : Platform) (threatDatabase : Option ThreatDatabase)
    (input : UrlInput) (u : ParsedUrl)
    (hinput : input = .urlObject u ∨ ∃ s, input = .text s ∧ p.parseURL s = some u)
    (hwl : isWhitelisted p u.hostname = false)
    (hfail : (∃ e, checkKnownPhishingDomains (refreshedDatabase p threatDatabase) u = .error e) ∨
      (∃ e, checkUrlShorteners (refreshedDatabase p threatDatabase) u = .error e)) :
    analyzeUrl p threatDatabase input = .ok "unknown" := by
  obtain ⟨e, he⟩ := runChecks_error _ u hfail
  rw [analyzeUrl_of_aggregateScore p threatDatabase input u hinput hwl]
  simp [aggregateScore, he]

theorem analyzeUrl_detector_failure_witness :
    isWhitelisted brokenPlatform ipLoginUrl.hostname = false ∧
    analyzeUrl brokenPlatform none (.urlObject ipLoginUrl) = .ok "unknown" :=
  ⟨isWhitelisted_empty _ _ rfl,
    analyzeUrl_detector_failure brokenPlatform none (.urlObject ipLoginUrl) ipLoginUrl
      (Or.inl rfl) (isWhitelisted_empty _ _ rfl)
      (Or.inl ⟨_, checkKnownPhishingDomains_broken _⟩)⟩

theorem loadThreatDatabase_of_error (p : Platform) (e : JSError)
    (hfail : p.storedThreatDatabase = .error e) : loadThreatDatabase p = emptyDatabase := by
  simp [loadThreatDatabase, hfail]

/-- C17 (as stated, refuted): with `loadedSnapshot` held and stale, a refresh whose storage
read is rejected leaves the empty snapshot, not `loadedSnapshot`, in the detector. -/
theorem failed_refresh_discards_snapshot :
    failingPlatform.storedThreatDatabase = .error .storageError ∧
    needsRefresh failingPlatform (some loadedSnapshot) = true ∧
    databaseAfterAnalyze failingPlatform (some loadedSnapshot) (.urlObject googleUrl) =
      some emptyDatabase ∧
    databaseAfterAnalyze failingPlatform (some loadedSnapshot) (.urlObject googleUrl) ≠
      some loadedSnapshot := by
  have h : databaseAfterAnalyze failingPlatform (some loadedSnapshot) (.urlObject googleUrl) =
      some emptyDatabase := by
    have hn : needsRefresh failingPlatform (some loadedSnapshot) = true := by decide
    simp [databaseAfterAnalyze, refreshedDatabase, hn,
      loadThreatDatabase_of_error failingPlatform _ rfl]
  refine ⟨rfl, by decide, h, ?_⟩
  rw [h]
  intro heq
  have hp := congrArg ThreatDatabase.phishingDomains (Option.some.inj heq)
  simp [emptyDatabase, loadedSnapshot] at hp

/-- C17 (amended): when the storage read of a refresh fails, the snapshot held afterwards
is the empty one (empty `phishingDomains`, `suspiciousPatterns` and `urlShorteners`),
whether or not a snapshot was held before; `analyzeUrl` goes on with it. -/
theorem loadThreatDatabase_failure (p : Platform) (e : JSError)
    (hfail : p.storedThreatDatabase = .error e) :
    loadThreatDatabase p = emptyDatabase ∧
    (∀ (held : Option ThreatDatabase) (u : ParsedUrl), needsRefresh p held = true →
      refreshedDatabase p held = emptyDatabase ∧
      databaseAfterAnalyze p held (.urlObject u) = some emptyDatabase) ∧
    emptyDatabase.phishingDomains = .array [] ∧ emptyDatabase.suspiciousPatterns = .array [] ∧
    emptyDatabase.urlShorteners = .array [] := by
  have hl := loadThreatDatabase_of_error p e hfail
  refine ⟨hl, ?_, rfl, rfl, rfl⟩
  intro held u hn
  have hr : refreshedDatabase p held = emptyDatabase := by
    cases held with
    | none => simp [refreshedDatabase, hl]
    | some db => simp [refreshedDatabase, hn, hl]
  exact ⟨hr, by simp [databaseAfterAnalyze, hr]⟩

theorem loadThreatDatabase_failure_witness :
    failingPlatform.storedThreatDatabase = .error .storageError ∧
    loadThreatDatabase failingPlatform = emptyDatabase :=
  ⟨rfl, (loadThreatDatabase_failure failingPlatform .storageError rfl).1⟩

/-! ## Character substitution on a single replaced letter -/

theorem isCharacterSubstitution_goog1e :
    isCharacterSubstitution "goog1e.com".toList "google.com".toList = false := by
  rw [isCharacterSubstitution_eq]
  decide

/-- C21 (as stated, refuted): `isCharacterSubstitution("goog1e.com", "google.com")` does
not return true. -/
theorem isCharacterSubstitution_goog1e_not_detected :
    isCharacterSubstitution "goog1e.com".toList "google.com".toList ≠ true := by
  rw [isCharacterSubstitution_goog1e]
  decide

/-- C21 (amended): `isCharacterSubstitution("goog1e.com", "google.com")` returns false,
because the code replaces every look-alike letter of the legitimate domain at once:
`google.com` becomes `900913.c0m`, which `goog1e.com` neither contains nor resembles
(similarity `2 / 5`); the fully substituted `900913.c0m` is reported, and `goog1e.com`
is still flagged by the similarity rule of `checkTyposquatting` (risk 80). -/
theorem isCharacterSubstitution_goog1e_false :
    isCharacterSubstitution "goog1e.com".toList "google.com".toList = false ∧
    substituteLegit "google.com".toList = "900913.c0m".toList ∧
    calculateStringSimilarity "goog1e.com".toList "900913.c0m".toList = 2 / 5 ∧
    isCharacterSubstitution "900913.c0m".toList "google.com".toList = true ∧
    (scanLegitimate "goog1e.com".toList legitimateDomains).riskScore = 80 := by
  refine ⟨isCharacterSubstitution_goog1e, by decide, ?_, ?_, ?_⟩
  · have hd : levenshteinDistance "goog1e.com".toList "900913.c0m".toList = 6 := by decide
    have hne : ¬("goog1e.com".toList = [] ∧ "900913.c0m".toList = []) := by decide
    rw [calculateStringSimilarity_eq, if_neg hne, hd]
    norm_num
  · rw [isCharacterSubstitution_eq]
    decide
  · rw [scanLegitimate_eq]
    decide

/-! ## The protocol check -/

/-- C25 (as stated, refuted): `ftp://example.org/` has a scheme other than `https`, and
`checkSSLStatus` does not return risk 40 for it. -/
theorem checkSSLStatus_ftpUrl :
    ftpUrl.protocol ≠ "https:".toList ∧ (checkSSLStatus ftpUrl).risk = 0 ∧
      (checkSSLStatus ftpUrl).risk ≠ 40 := by
  have h : (checkSSLStatus ftpUrl).risk = 0 := by decide
  refine ⟨by decide, h, ?_⟩
  rw [h]
  norm_num

theorem findings_add_true (f : Findings) (risk : Nat) (detail : String) :
    f.add true risk detail =
      { riskScore := f.riskScore + risk, details := f.details ++ [detail] } := rfl

theorem findings_add_false (f : Findings) (risk : Nat) (detail : String) :
    f.add false risk detail = f := rfl

/-- C25 (amended): `checkSSLStatus` returns risk 40 when the scheme is `http`, risk 20 when
the scheme is `https` and the hostname contains `insecure`, and risk 0 otherwise, every
other scheme included. -/
theorem checkSSLStatus_risk (url : ParsedUrl) :
    (url.protocol = "http:".toList → (checkSSLStatus url).risk = 40) ∧
    ((url.protocol = "https:".toList ∧ ∃ p t, url.hostname = p ++ "insecure".toList ++ t) →
      (checkSSLStatus url).risk = 20) ∧
    ((url.protocol ≠ "http:".toList ∧
        ¬ (url.protocol = "https:".toList ∧
          ∃ p t, url.hostname = p ++ "insecure".toList ++ t)) →
      (checkSSLStatus url).risk = 0) := by
  have hinc := includes_iff url.hostname "insecure".toList
  refine ⟨?_, ?_, ?_⟩
  · intro h1
    have h2 : ¬ url.protocol = "https:".toList := by
      rw [h1]; decide
    have e1 : (url.protocol == "http:".toList) = true := by simpa using h1
    have e2 : (url.protocol == "https:".toList) = false := by simpa using h2
    simp only [checkSSLStatus, e1, e2, Bool.false_and, findings_add_true, findings_add_false]
    norm_num
  · rintro ⟨h2, h3⟩
    have h1 : ¬ url.protocol = "http:".toList := by
      rw [h2]; decide
    have e1 : (url.protocol == "http:".toList) = false := by simpa using h1
    have e2 : (url.protocol == "https:".toList) = true := by simpa using h2
    have e3 : includes url.hostname "insecure".toList = true := hinc.mpr h3
    simp only [checkSSLStatus, e1, e2, e3, Bool.and_self, findings_add_true, findings_add_false]
    norm_num
  · rintro ⟨h1, h23⟩
    have e1 : (url.protocol == "http:".toList) = false := by simpa using h1
    have e23 : (url.protocol == "https:".toList && includes url.hostname "insecure".toList)
        = false := by
      rw [Bool.eq_false_iff]
      intro h
      rw [Bool.and_eq_true] at h
      exact h23 ⟨by simpa using h.1, hinc.mp h.2⟩
    simp only [checkSSLStatus, e1, e23, findings_add_false]
    norm_num

/-! ## The number of check results -/

/-- C30: the list that `analyzeUrl` hands to `calculateRiskScore` always has exactly seven
results, so the division by `checks.length` yields a number; the `NaN` of the empty list
does not arise from `analyzeUrl`. -/
theorem runChecks_seven (db : ThreatDatabase) (url : ParsedUrl) (checks : List CheckResult)
    (h : runChecks db url = .ok checks) :
    checks.length = 7 ∧ (∃ s, calculateRiskScore checks = some s) ∧
      aggregateScore db url = .ok (calculateRiskScore checks) ∧
      aggregateScore db url ≠ .ok none ∧ calculateRiskScore [] = none := by
  have hlen : checks.length = 7 := by
    cases hk : checkKnownPhishingDomains db url with
    | error e => simp [runChecks, hk, bind, Except.bind] at h
    | ok k =>
      cases hc : checkUrlShorteners db url with
      | error e => simp [runChecks, hk, hc, bind, Except.bind] at h
      | ok c =>
        rw [runChecks_of_ok db url k c hk hc] at h
        cases h
        rfl
  have hsome : ∃ s, calculateRiskScore checks = some s := by
    have hne : checks.length ≠ 0 := by omega
    unfold calculateRiskScore
    simp only [hne, if_false]
    split_ifs
    · exact ⟨_, rfl⟩
    · exact ⟨_, rfl⟩
  have hagg : aggregateScore db url = .ok (calculateRiskScore checks) := by
    simp [aggregateScore, h]
  refine ⟨hlen, hsome, hagg, ?_, rfl⟩
  obtain ⟨s, hs⟩ := hsome
  rw [hagg, hs]
  intro hcontra
  cases hcontra

theorem runChecks_seven_witness :
    (runChecks emptyDatabase googleUrl).toOption.map List.length = some 7 := by
  obtain ⟨checks, hr⟩ : ∃ checks, runChecks emptyDatabase googleUrl = .ok checks :=
    ⟨_, runChecks_empty googleUrl⟩
  have h := (runChecks_seven emptyDatabase googleUrl checks hr).1
  rw [hr]
  simp [Except.toOption, h]

/-! ## The known phishing list -/

/-- C24: with the phishing list `L` of the snapshot, `checkKnownPhishingDomains` returns
risk 100 exactly when some domain of `L` equals the lower-cased hostname, occurs in it as a
substring, or is more than `0.8` similar to it, and risk 0 otherwise. -/
theorem checkKnownPhishingDomains_iff (db : ThreatDatabase) (url : ParsedUrl)
    (L : List JSString) (hL : db.phishingDomains.items = .ok L) :
    ∃ r, checkKnownPhishingDomains db url = .ok r ∧
      (r.risk = 100 ∨ r.risk = 0) ∧
      (r.risk = 100 ↔ ∃ d ∈ L, toLowerCase url.hostname = d ∨
        (∃ p t, toLowerCase url.hostname = p ++ d ++ t) ∨
        calculateStringSimilarity (toLowerCase url.hostname) d > 0.8) := by
  have hany : (L.any (fun domain =>
      toLowerCase url.hostname == domain || includes (toLowerCase url.hostname) domain ||
        decide (calculateStringSimilarity (toLowerCase url.hostname) domain > 0.8))) = true ↔
      ∃ d ∈ L, toLowerCase url.hostname = d ∨
        (∃ p t, toLowerCase url.hostname = p ++ d ++ t) ∨
        calculateStringSimilarity (toLowerCase url.hostname) d > 0.8 := by
    simp only [List.any_eq_true, Bool.or_eq_true, beq_iff_eq, includes_iff, decide_eq_true_eq,
      or_assoc]
  have hr : checkKnownPhishingDomains db url = .ok
      { type := "knownPhishing"
        risk := if (L.any (fun domain =>
          toLowerCase url.hostname == domain || includes (toLowerCase url.hostname) domain ||
            decide (calculateStringSimilarity (toLowerCase url.hostname) domain > 0.8))) = true
          then 100 else 0
        details := if (L.any (fun domain =>
          toLowerCase url.hostname == domain || includes (toLowerCase url.hostname) domain ||
            decide (calculateStringSimilarity (toLowerCase url.hostname) domain > 0.8))) = true
          then some "Domain matches known phishing site" else none } := by
    simp only [checkKnownPhishingDomains, hL, bind, Except.bind, pure, Except.pure]
  refine ⟨_, hr, ?_, ?_⟩
  · dsimp only
    split_ifs <;> simp
  · dsimp only
    rw [← hany]
    split_ifs with h
    · simp [h]
    · simp [h]

theorem checkKnownPhishingDomains_iff_witness :
    loadedSnapshot.phishingDomains.items = .ok ["paypal-secure.com".toList] ∧
    ∃ r, checkKnownPhishingDomains loadedSnapshot knownPhishingUrl = .ok r ∧
      (r.risk = 100 ∨ r.risk = 0) ∧
      (r.risk = 100 ↔ ∃ d ∈ ["paypal-secure.com".toList],
        toLowerCase knownPhishingUrl.hostname = d ∨
        (∃ p t, toLowerCase knownPhishingUrl.hostname = p ++ d ++ t) ∨
        calculateStringSimilarity (toLowerCase knownPhishingUrl.hostname) d > 0.8) :=
  ⟨rfl, checkKnownPhishingDomains_iff loadedSnapshot knownPhishingUrl _ rfl⟩

/-! ## One signal alone -/

theorem sum_risk_eq_zero_of_countP (l : List CheckResult)
    (h : l.countP (fun c => decide (c.risk ≠ 0)) = 0) :
    (l.map (fun c => c.risk)).sum = 0 := by
  rw [List.countP_eq_zero] at h
  apply List.sum_eq_zero
  intro x hx
  obtain ⟨c, hc, rfl⟩ := List.mem_map.mp hx
  simpa using h c hc

theorem sum_risk_eq_of_single (l : List CheckResult) (d : CheckResult) (hd : d ∈ l)
    (hd0 : d.risk ≠ 0) (h : l.countP (fun c => decide (c.risk ≠ 0)) ≤ 1) :
    (l.map (fun c => c.risk)).sum = d.risk := by
  induction l with
  | nil => simp at hd
  | cons e l ih =>
    by_cases he : e.risk = 0
    · have hcount : l.countP (fun c => decide (c.risk ≠ 0)) ≤ 1 := by
        rw [List.countP_cons_of_neg _ _ (by simpa using he)] at h
        exact h
      rcases List.mem_cons.mp hd with rfl | hd'
      · exact absurd he hd0
      · simp only [List.map_cons, List.sum_cons, he, zero_add]
        exact ih hd' hcount
    · have hz : l.countP (fun c => decide (c.risk ≠ 0)) = 0 := by
        rw [List.countP_cons_of_pos _ _ (by simpa using he)] at h
        omega
      rcases List.mem_cons.mp hd with rfl | hd'
      · simp [sum_risk_eq_zero_of_countP l hz]
      · exact absurd (by simpa using (List.countP_eq_zero.mp hz) d hd') hd0

/-- With at most one non-zero risk, none negative, the sum of the risks is at most the
greatest one. -/
theorem totalRisk_le_maxRisk (l : List CheckResult)
    (h : l.countP (fun c => decide (c.risk ≠ 0)) ≤ 1) :
    (l.foldl accumulate ⟨0, 0, 0⟩).totalRisk ≤ (l.foldl accumulate ⟨0, 0, 0⟩).maxRisk := by
  rw [foldl_accumulate_totalRisk]
  simp only [zero_add]
  have hmax := le_foldl_accumulate_maxRisk l ⟨0, 0, 0⟩
  by_cases hz : l.countP (fun c => decide (c.risk ≠ 0)) = 0
  · rw [sum_risk_eq_zero_of_countP l hz]
    exact hmax.1
  · obtain ⟨d, hd, hd0⟩ : ∃ d ∈ l, d.risk ≠ 0 := by
      by_contra hno
      push_neg at hno
      apply hz
      rw [List.countP_eq_zero]
      intro a ha
      simpa using hno a ha
    rw [sum_risk_eq_of_single l d hd hd0 h]
    exact hmax.2 d hd

theorem criticalIssues_le_countP (l : List CheckResult) :
    l.countP (fun c => decide (c.risk ≥ 80)) ≤ l.countP (fun c => decide (c.risk ≠ 0)) := by
  apply List.countP_mono_left
  intro c _ hc
  simp only [decide_eq_true_eq] at hc ⊢
  intro h0
  rw [h0] at hc
  norm_num at hc

theorem determineRiskLevel_lt_50 (s : ℚ) (h : s < 50) :
    (determineRiskLevel (some s) = "safe" ∨ determineRiskLevel (some s) = "low") ∧
      (20 ≤ s → determineRiskLevel (some s) = "low") := by
  have h80 : ¬ s ≥ 80 := by linarith
  have h50 : ¬ s ≥ 50 := by linarith
  by_cases h20 : s ≥ 20
  · simp [determineRiskLevel, scoreGe, h80, h50, h20]
  · simp [determineRiskLevel, scoreGe, h80, h50, h20]

/-- C27: seven results with risks in `[0, 100]` of which at most one is not zero aggregate to
less than 50, so the level is `safe` or `low`; when the one signal is a risk of 100 (a
known phishing domain and nothing else) the level is `low`. -/
theorem calculateRiskScore_single_signal (checks : List CheckResult)
    (hlen : checks.length = 7) (hrange : ∀ c ∈ checks, 0 ≤ c.risk ∧ c.risk ≤ 100)
    (hone : checks.countP (fun c => decide (c.risk ≠ 0)) ≤ 1) :
    ∃ s, calculateRiskScore checks = some s ∧ s < 50 ∧
      (determineRiskLevel (some s) = "safe" ∨ determineRiskLevel (some s) = "low") ∧
      ((∃ c ∈ checks, c.risk = 100) → determineRiskLevel (some s) = "low") := by
  have hne : checks.length ≠ 0 := by omega
  obtain ⟨ht0, -, hm0, hm⟩ := foldl_accumulate_bounds checks hrange
  have htm := totalRisk_le_maxRisk checks hone
  have hcrit : ¬ (checks.foldl accumulate ⟨0, 0, 0⟩).criticalIssues > 1 := by
    rw [foldl_accumulate_criticalIssues]
    have := criticalIssues_le_countP checks
    simp only [Nat.zero_add]
    omega
  have hs : calculateRiskScore checks =
      some ((checks.foldl accumulate ⟨0, 0, 0⟩).totalRisk / 7 * 0.6 +
        (checks.foldl accumulate ⟨0, 0, 0⟩).maxRisk * 0.4) := by
    unfold calculateRiskScore
    simp only [hne, if_false, hcrit, hlen]
    norm_num
  have hlt : (checks.foldl accumulate ⟨0, 0, 0⟩).totalRisk / 7 * 0.6 +
      (checks.foldl accumulate ⟨0, 0, 0⟩).maxRisk * 0.4 < 50 := by
    norm_num
    linarith
  refine ⟨_, hs, hlt, (determineRiskLevel_lt_50 _ hlt).1, ?_⟩
  rintro ⟨c, hc, hc100⟩
  apply (determineRiskLevel_lt_50 _ hlt).2
  have hc0 : c.risk ≠ 0 := by rw [hc100]; norm_num
  have hsum := sum_risk_eq_of_single checks c hc hc0 hone
  have ht : (checks.foldl accumulate ⟨0, 0, 0⟩).totalRisk = 100 := by
    rw [foldl_accumulate_totalRisk, hsum, hc100]
    norm_num
  have hmge : (100 : ℚ) ≤ (checks.foldl accumulate ⟨0, 0, 0⟩).maxRisk := by
    rw [← hc100]
    exact (le_foldl_accumulate_maxRisk checks ⟨0, 0, 0⟩).2 c hc
  rw [ht]
  norm_num
  linarith

theorem calculateRiskScore_single_signal_witness :
    singleSignalChecks.length = 7 ∧
    ∃ s, calculateRiskScore singleSignalChecks = some s ∧ s < 50 ∧
      (determineRiskLevel (some s) = "safe" ∨ determineRiskLevel (some s) = "low") ∧
      ((∃ c ∈ singleSignalChecks, c.risk = 100) → determineRiskLevel (some s) = "low") :=
  ⟨rfl, calculateRiskScore_single_signal singleSignalChecks rfl
    (by
      intro c hc
      simp only [singleSignalChecks, List.mem_cons, List.mem_singleton, List.not_mem_nil,
        or_false] at hc
      rcases hc with rfl | rfl | rfl | rfl | rfl | rfl | rfl <;> norm_num)
    (by simp [singleSignalChecks, List.countP_cons])⟩

/-! ## The typosquatting scan -/

theorem joinDetails_nil : joinDetails [] = none := rfl

theorem joinDetails_singleton (detail : String) : joinDetails [detail] = some detail := by
  simp [joinDetails, String.intercalate, String.intercalate.go]

/-- The scan stops at the first domain that triggers one of the two tests. -/
theorem scanLegitimate_first (h : JSString) (pre : List String) (d : String)
    (post : List String)
    (hpre : ∀ e ∈ pre,
      ¬ (calculateStringSimilarity h e.toList > 0.7 ∧
          calculateStringSimilarity h e.toList < 1.0) ∧
        isCharacterSubstitution h e.toList = false) :
    ((calculateStringSimilarity h d.toList > 0.7 ∧
        calculateStringSimilarity h d.toList < 1.0) →
      scanLegitimate h (pre ++ d :: post) =
        { riskScore := 80, details := ["Possible typosquatting of " ++ d] }) ∧
    (¬ (calculateStringSimilarity h d.toList > 0.7 ∧
        calculateStringSimilarity h d.toList < 1.0) →
      isCharacterSubstitution h d.toList = true →
      scanLegitimate h (pre ++ d :: post) =
        { riskScore := 85, details := ["Character substitution attack targeting " ++ d] }) := by
  induction pre with
  | nil =>
    constructor
    · intro hn
      simp only [List.nil_append, scanLegitimate, hn, and_self, if_true]
    · intro hn hs
      simp only [List.nil_append, scanLegitimate, hn, if_false, hs, if_true]
  | cons e pre ih =>
    have he := hpre e (List.mem_cons_self _ _)
    have ih' := ih (fun x hx => hpre x (List.mem_cons_of_mem _ hx))
    have hstep : scanLegitimate h (e :: (pre ++ d :: post)) =
        scanLegitimate h (pre ++ d :: post) := by
      simp only [scanLegitimate, he.1, if_false, he.2, Bool.false_eq_true]
    rw [List.cons_append, hstep]
    exact ih'

theorem scanLegitimate_none (h : JSString) (domains : List String)
    (hall : ∀ e ∈ domains,
      ¬ (calculateStringSimilarity h e.toList > 0.7 ∧
          calculateStringSimilarity h e.toList < 1.0) ∧
        isCharacterSubstitution h e.toList = false) :
    scanLegitimate h domains = { riskScore := 0, details := [] } := by
  induction domains with
  | nil => rfl
  | cons e rest ih =>
    have he := hall e (List.mem_cons_self _ _)
    simp only [scanLegitimate, he.1, if_false, he.2, Bool.false_eq_true]
    exact ih (fun x hx => hall x (List.mem_cons_of_mem _ hx))

theorem scanLegitimate_cases (h : JSString) (domains : List String) :
    scanLegitimate h domains = { riskScore := 0, details := [] } ∨
    ∃ d ∈ domains,
      scanLegitimate h domains =
        { riskScore := 80, details := ["Possible typosquatting of " ++ d] } ∨
      scanLegitimate h domains =
        { riskScore := 85, details := ["Character substitution attack targeting " ++ d] } := by
  induction domains with
  | nil => exact Or.inl rfl
  | cons e rest ih =>
    by_cases hn : calculateStringSimilarity h e.toList > 0.7 ∧
        calculateStringSimilarity h e.toList < 1.0
    · right
      exact ⟨e, List.mem_cons_self _ _, Or.inl (by simp only [scanLegitimate, hn, and_self, if_true])⟩
    · by_cases hs : isCharacterSubstitution h e.toList = true
      · right
        exact ⟨e, List.mem_cons_self _ _,
          Or.inr (by simp only [scanLegitimate, hn, if_false, hs, if_true])⟩
      · have hstep : scanLegitimate h (e :: rest) = scanLegitimate h rest := by
          simp only [scanLegitimate, hn, if_false, hs, Bool.false_eq_true]
        rw [hstep]
        rcases ih with h0 | ⟨d, hd, hd'⟩
        · exact Or.inl h0
        · exact Or.inr ⟨d, List.mem_cons_of_mem _ hd, hd'⟩

theorem checkTyposquatting_of_scan (url : ParsedUrl) (f : Findings)
    (hf : scanLegitimate (toLowerCase url.hostname) legitimateDomains = f) :
    (checkTyposquatting url).risk = (f.riskScore : ℚ) ∧
      (checkTyposquatting url).details = joinDetails f.details := by
  subst hf
  exact ⟨rfl, rfl⟩

/-- C22: `checkTyposquatting` goes through the twelve legitimate domains in the order of
the list and answers at the first one that triggers: risk 80 when the similarity to the
lower-cased hostname is strictly between `0.7` and `1.0`, else risk 85 when
`isCharacterSubstitution` holds; when no domain triggers the risk is 0. So the risk is one
of 0, 80, 85 and the details are absent or a single explanation. -/
theorem checkTyposquatting_scan (url : ParsedUrl) :
    (∀ (pre : List String) (d : String) (post : List String),
      legitimateDomains = pre ++ d :: post →
      (∀ e ∈ pre,
        ¬ (calculateStringSimilarity (toLowerCase url.hostname) e.toList > 0.7 ∧
            calculateStringSimilarity (toLowerCase url.hostname) e.toList < 1.0) ∧
          isCharacterSubstitution (toLowerCase url.hostname) e.toList = false) →
      ((calculateStringSimilarity (toLowerCase url.hostname) d.toList > 0.7 ∧
          calculateStringSimilarity (toLowerCase url.hostname) d.toList < 1.0) →
        (checkTyposquatting url).risk = 80 ∧
          (checkTyposquatting url).details = some ("Possible typosquatting of " ++ d)) ∧
      (¬ (calculateStringSimilarity (toLowerCase url.hostname) d.toList > 0.7 ∧
          calculateStringSimilarity (toLowerCase url.hostname) d.toList < 1.0) →
        isCharacterSubstitution (toLowerCase url.hostname) d.toList = true →
        (checkTyposquatting url).risk = 85 ∧
          (checkTyposquatting url).details =
            some ("Character substitution attack targeting " ++ d))) ∧
    ((∀ e ∈ legitimateDomains,
        ¬ (calculateStringSimilarity (toLowerCase url.hostname) e.toList > 0.7 ∧
            calculateStringSimilarity (toLowerCase url.hostname) e.toList < 1.0) ∧
          isCharacterSubstitution (toLowerCase url.hostname) e.toList = false) →
      (checkTyposquatting url).risk = 0 ∧ (checkTyposquatting url).details = none) ∧
    ((checkTyposquatting url).risk = 0 ∨ (checkTyposquatting url).risk = 80 ∨
      (checkTyposquatting url).risk = 85) ∧
    ((checkTyposquatting url).details = none ∨
      ∃ d ∈ legitimateDomains,
        (checkTyposquatting url).details = some ("Possible typosquatting of " ++ d) ∨
        (checkTyposquatting url).details =
          some ("Character substitution attack targeting " ++ d)) ∧
    legitimateDomains.length = 12 := by
  refine ⟨?_, ?_, ?_, ?_, rfl⟩
  · intro pre d post hlist hpre
    have hfirst := scanLegitimate_first (toLowerCase url.hostname) pre d post hpre
    rw [← hlist] at hfirst
    constructor
    · intro hn
      have := checkTyposquatting_of_scan url _ (hfirst.1 hn)
      simpa [joinDetails_singleton] using this
    · intro hn hs
      have := checkTyposquatting_of_scan url _ (hfirst.2 hn hs)
      simpa [joinDetails_singleton] using this
  · intro hall
    have := checkTyposquatting_of_scan url _
      (scanLegitimate_none (toLowerCase url.hostname) legitimateDomains hall)
    simpa [joinDetails_nil] using this
  · rcases scanLegitimate_cases (toLowerCase url.hostname) legitimateDomains with
      h0 | ⟨d, -, h80 | h85⟩
    · left; simpa using (checkTyposquatting_of_scan url _ h0).1
    · right; left; simpa using (checkTyposquatting_of_scan url _ h80).1
    · right; right; simpa using (checkTyposquatting_of_scan url _ h85).1
  · rcases scanLegitimate_cases (toLowerCase url.hostname) legitimateDomains with
      h0 | ⟨d, hd, h80 | h85⟩
    · left; simpa [joinDetails_nil] using (checkTyposquatting_of_scan url _ h0).2
    · right
      exact ⟨d, hd, Or.inl (by
        simpa [joinDetails_singleton] using (checkTyposquatting_of_scan url _ h80).2)⟩
    · right
      exact ⟨d, hd, Or.inr (by
        simpa [joinDetails_singleton] using (checkTyposquatting_of_scan url _ h85).2)⟩

theorem scanLegitimate_of_nearMiss (h : JSString) (domains : List String)
    (hex : ∃ d ∈ domains, calculateStringSimilarity h d.toList > 0.7 ∧
      calculateStringSimilarity h d.toList < 1.0) :
    scanLegitimate h domains ≠ { riskScore := 0, details := [] } := by
  induction domains with
  | nil =>
    obtain ⟨d, hd, -⟩ := hex
    simp at hd
  | cons e rest ih =>
    by_cases hn : calculateStringSimilarity h e.toList > 0.7 ∧
        calculateStringSimilarity h e.toList < 1.0
    · simp only [scanLegitimate, hn, and_self, if_true]
      intro hcontra
      have := congrArg Findings.riskScore hcontra
      simp at this
    · by_cases hs : isCharacterSubstitution h e.toList = true
      · simp only [scanLegitimate, hn, if_false, hs, if_true]
        intro hcontra
        have := congrArg Findings.riskScore hcontra
        simp at this
      · have hstep : scanLegitimate h (e :: rest) = scanLegitimate h rest := by
          simp only [scanLegitimate, hn, if_false, hs, Bool.false_eq_true]
        rw [hstep]
        apply ih
        obtain ⟨d, hd, hdn⟩ := hex
        rcases List.mem_cons.mp hd with rfl | hd'
        · exact absurd hdn hn
        · exact ⟨d, hd', hdn⟩

theorem legitimateDomains_length_ge :
    ∀ d ∈ legitimateDomains, 8 ≤ d.toList.length := by decide

/-- C28: a lower-case hostname at Levenshtein distance exactly 1 from one of the twelve
legitimate domains gets a risk of 80 or 85 from `checkTyposquatting`, with an explanation. -/
theorem checkTyposquatting_distance_one (url : ParsedUrl) (d : String)
    (hd : d ∈ legitimateDomains) (hlow : toLowerCase url.hostname = url.hostname)
    (hdist : levenshteinDistance url.hostname d.toList = 1) :
    ((checkTyposquatting url).risk = 80 ∨ (checkTyposquatting url).risk = 85) ∧
      (checkTyposquatting url).details ≠ none := by
  have hlen := legitimateDomains_length_ge d hd
  have hnear : calculateStringSimilarity (toLowerCase url.hostname) d.toList > 0.7 ∧
      calculateStringSimilarity (toLowerCase url.hostname) d.toList < 1.0 := by
    rw [hlow, similarity_nearMiss_iff]
    simp only [similarityNearMiss, hdist, Bool.and_eq_true, decide_eq_true_eq]
    have : d.toList.length ≤ max url.hostname.length d.toList.length := le_max_right _ _
    omega
  have hne := scanLegitimate_of_nearMiss (toLowerCase url.hostname) legitimateDomains
    ⟨d, hd, hnear⟩
  rcases scanLegitimate_cases (toLowerCase url.hostname) legitimateDomains with
    h0 | ⟨e, -, h80 | h85⟩
  · exact absurd h0 hne
  · have := checkTyposquatting_of_scan url _ h80
    refine ⟨Or.inl (by simpa using this.1), ?_⟩
    rw [this.2, joinDetails_singleton]
    simp
  · have := checkTyposquatting_of_scan url _ h85
    refine ⟨Or.inr (by simpa using this.1), ?_⟩
    rw [this.2, joinDetails_singleton]
    simp

theorem checkTyposquatting_distance_one_witness :
    "google.com" ∈ legitimateDomains ∧
    levenshteinDistance lookAlikeUrl.hostname "google.com".toList = 1 ∧
    ((checkTyposquatting lookAlikeUrl).risk = 80 ∨ (checkTyposquatting lookAlikeUrl).risk = 85) ∧
      (checkTyposquatting lookAlikeUrl).details ≠ none :=
  ⟨by decide, by decide,
    checkTyposquatting_distance_one lookAlikeUrl "google.com" (by decide) (by decide)
      (by decide)⟩

set_option maxRecDepth 100000 in
theorem legitimateDomains_pairwise :
    ∀ d ∈ legitimateDomains, toLowerCase d.toList = d.toList ∧
      ∀ e ∈ legitimateDomains,
        similarityNearMiss d.toList e.toList = false ∧
        (includes d.toList (substituteLegit e.toList) ||
          similarityAbove08 d.toList (substituteLegit e.toList)) = false := by
  decide

/-- C29: for a URL whose hostname is exactly one of the twelve legitimate domains,
`checkTyposquatting` returns risk 0 and no details: the domain is not within similarity
`(0.7, 1.0)` of any listed domain, and it does not pass `isCharacterSubstitution` against
itself or any other listed domain. -/
theorem checkTyposquatting_legitimate (d : String) (hd : d ∈ legitimateDomains)
    (url : ParsedUrl) (hhost : url.hostname = d.toList) :
    (checkTyposquatting url).risk = 0 ∧ (checkTyposquatting url).details = none ∧
    ∀ e ∈ legitimateDomains,
      ¬ (calculateStringSimilarity d.toList e.toList > 0.7 ∧
          calculateStringSimilarity d.toList e.toList < 1.0) ∧
        isCharacterSubstitution d.toList e.toList = false := by
  obtain ⟨hlow, hpair⟩ := legitimateDomains_pairwise d hd
  have hall : ∀ e ∈ legitimateDomains,
      ¬ (calculateStringSimilarity d.toList e.toList > 0.7 ∧
          calculateStringSimilarity d.toList e.toList < 1.0) ∧
        isCharacterSubstitution d.toList e.toList = false := by
    intro e he
    obtain ⟨h1, h2⟩ := hpair e he
    refine ⟨?_, ?_⟩
    · rw [similarity_nearMiss_iff, h1]
      simp
    · rw [isCharacterSubstitution_eq, h2]
  have hscan := scanLegitimate_none (toLowerCase url.hostname) legitimateDomains
    (by rw [hhost, hlow]; exact hall)
  have := checkTyposquatting_of_scan url _ hscan
  exact ⟨by simpa using this.1, by simpa [joinDetails_nil] using this.2, hall⟩

theorem checkTyposquatting_legitimate_witness :
    "ebay.com" ∈ legitimateDomains ∧ (checkTyposquatting ebayUrl).risk = 0 ∧
      (checkTyposquatting ebayUrl).details = none :=
  ⟨by decide,
    (checkTyposquatting_legitimate "ebay.com" (by decide) ebayUrl rfl).1,
    (checkTyposquatting_legitimate "ebay.com" (by decide) ebayUrl rfl).2.1⟩

/-! ## Additive detectors and their explanations -/

theorem foldl_add_eq (cs : List Contribution) (f : Findings) :
    cs.foldl (fun f c => f.add c.applies c.risk c.explanation) f =
      { riskScore := f.riskScore + appliedRisk cs
        details := f.details ++ appliedExplanations cs } := by
  induction cs generalizing f with
  | nil => simp [appliedRisk, appliedExplanations]
  | cons c cs ih =>
    rw [List.foldl_cons, ih]
    cases hc : c.applies
    · simp [Findings.add, hc, appliedRisk, appliedExplanations]
    · simp [Findings.add, hc, appliedRisk, appliedExplanations, Nat.add_assoc]

theorem checkSuspiciousPatterns_eq (url : ParsedUrl) :
    checkSuspiciousPatterns url =
      { type := "suspiciousPatterns"
        risk := ((min (appliedRisk (suspiciousPatternsContributions url)) 100 : Nat) : ℚ)
        details := joinDetails (appliedExplanations (suspiciousPatternsContributions url)) } := by
  have h := foldl_add_eq (suspiciousPatternsContributions url) { riskScore := 0, details := [] }
  simp only [Nat.zero_add, List.nil_append] at h
  have hr := congrArg Findings.riskScore h
  have hd := congrArg Findings.details h
  simp only at hr hd
  rw [← hr, ← hd]
  rfl

theorem checkDomainReputation_eq (url : ParsedUrl) :
    checkDomainReputation url =
      { type := "domainReputation"
        risk := ((appliedRisk (domainReputationContributions url) : Nat) : ℚ)
        details := joinDetails (appliedExplanations (domainReputationContributions url)) } := by
  have h := foldl_add_eq (domainReputationContributions url) { riskScore := 0, details := [] }
  simp only [Nat.zero_add, List.nil_append] at h
  have hr := congrArg Findings.riskScore h
  have hd := congrArg Findings.details h
  simp only at hr hd
  rw [← hr, ← hd]
  rfl

theorem checkSSLStatus_eq (url : ParsedUrl) :
    checkSSLStatus url =
      { type := "sslStatus"
        risk := ((appliedRisk (sslStatusContributions url) : Nat) : ℚ)
        details := joinDetails (appliedExplanations (sslStatusContributions url)) } := by
  have h := foldl_add_eq (sslStatusContributions url) { riskScore := 0, details := [] }
  simp only [Nat.zero_add, List.nil_append] at h
  have hr := congrArg Findings.riskScore h
  have hd := congrArg Findings.details h
  simp only at hr hd
  rw [← hr, ← hd]
  rfl

theorem countEncodedOctets_pos_mem (s : JSString) (h : 0 < countEncodedOctets s) :
    '%' ∈ s := by
  induction s using countEncodedOctets.induct with
  | case1 c h1 h2 after hc ih =>
    rw [hc.1]
    exact List.mem_cons_self _ _
  | case2 c h1 h2 after hc ih =>
    rw [countEncodedOctets, if_neg hc] at h
    exact List.mem_cons_of_mem _ (ih h)
  | case3 s hs =>
    rw [countEncodedOctets] at h
    · exact absurd h (by decide)
    · intro c h1 h2 after heq
      exact hs c h1 h2 after heq

theorem includes_singleton_of_mem (s : JSString) (c : Char) (h : c ∈ s) :
    includes s [c] = true := by
  rw [includes_iff]
  obtain ⟨p, t, rfl⟩ := List.append_of_mem h
  exact ⟨p, t, by simp⟩

theorem encodedCount_test (href : JSString) :
    (includes href "%".toList && decide (countEncodedOctets href > 0) &&
      decide (countEncodedOctets href > 5)) = decide (countEncodedOctets href > 5) := by
  by_cases h5 : countEncodedOctets href > 5
  · have h0 : countEncodedOctets href > 0 := by omega
    have hm := includes_singleton_of_mem href '%' (countEncodedOctets_pos_mem href h0)
    simp [h5, h0, hm]
  · simp [h5]

theorem checkUrlStructure_eq (url : ParsedUrl) :
    checkUrlStructure url =
      { type := "urlStructure"
        risk := ((appliedRisk (urlStructureContributions url) : Nat) : ℚ)
        details := joinDetails (appliedExplanations (urlStructureContributions url)) } := by
  have h := foldl_add_eq (urlStructureContributions url) { riskScore := 0, details := [] }
  simp only [Nat.zero_add, List.nil_append] at h
  have hr := congrArg Findings.riskScore h
  have hd := congrArg Findings.details h
  simp only at hr hd
  rw [← hr, ← hd]
  simp only [checkUrlStructure, encodedCount_test]
  rfl

theorem joinDetails_eq_none_iff (details : List String) :
    joinDetails details = none ↔ details = [] := by
  cases details with
  | nil => simp [joinDetails]
  | cons d ds => simp [joinDetails]

theorem joinDetails_eq (details : List String) :
    joinDetails details = if details = [] then none else some ("; ".intercalate details) := by
  cases details with
  | nil => simp [joinDetails]
  | cons d ds => simp [joinDetails]

theorem appliedExplanations_eq_nil_iff (cs : List Contribution) :
    appliedExplanations cs = [] ↔ ∀ c ∈ cs, c.applies = false := by
  simp [appliedExplanations, List.filter_eq_nil_iff]

theorem appliedRisk_eq_zero_iff (cs : List Contribution)
    (hpos : ∀ c ∈ cs, c.applies = true → 0 < c.risk) :
    appliedRisk cs = 0 ↔ ∀ c ∈ cs, c.applies = false := by
  induction cs with
  | nil => simp [appliedRisk]
  | cons c cs ih =>
    have ih' := ih (fun x hx => hpos x (List.mem_cons_of_mem _ hx))
    have hc := hpos c (List.mem_cons_self _ _)
    unfold appliedRisk at ih' ⊢
    cases happ : c.applies
    · simp [List.filter_cons, happ, ih']
    · have := hc happ
      simp [List.filter_cons, happ]
      omega

/-- An additive detector result built from contributions with positive risks explains its
contributions. -/
theorem explainsContributions_of_eq (r : CheckResult) (cs : List Contribution)
    (hpos : ∀ c ∈ cs, c.applies = true → 0 < c.risk)
    (hd : r.details = joinDetails (appliedExplanations cs))
    (hr : r.risk = 0 ↔ appliedRisk cs = 0) :
    ExplainsContributions r cs := by
  have h1 : r.details = none ↔ ∀ c ∈ cs, c.applies = false := by
    rw [hd, joinDetails_eq_none_iff, appliedExplanations_eq_nil_iff]
  refine ⟨hd, h1, ?_⟩
  rw [h1, hr, appliedRisk_eq_zero_iff cs hpos]

theorem suspiciousPatternsContributions_pos (url : ParsedUrl) :
    ∀ c ∈ suspiciousPatternsContributions url, c.applies = true → 0 < c.risk := by
  intro c hc happ
  simp only [suspiciousPatternsContributions, List.mem_cons, List.mem_singleton,
    List.not_mem_nil, or_false] at hc
  rcases hc with rfl | rfl | rfl | rfl | rfl | rfl | rfl
  all_goals (simp only [decide_eq_true_eq] at happ; simp only; omega)

theorem domainReputationContributions_pos (url : ParsedUrl) :
    ∀ c ∈ domainReputationContributions url, c.applies = true → 0 < c.risk := by
  intro c hc _
  simp only [domainReputationContributions, List.mem_cons, List.mem_singleton,
    List.not_mem_nil, or_false] at hc
  rcases hc with rfl | rfl | rfl <;> (simp only; omega)

theorem sslStatusContributions_pos (url : ParsedUrl) :
    ∀ c ∈ sslStatusContributions url, c.applies = true → 0 < c.risk := by
  intro c hc _
  simp only [sslStatusContributions, List.mem_cons, List.mem_singleton,
    List.not_mem_nil, or_false] at hc
  rcases hc with rfl | rfl <;> (simp only; omega)

theorem urlStructureContributions_pos (url : ParsedUrl) :
    ∀ c ∈ urlStructureContributions url, c.applies = true → 0 < c.risk := by
  intro c hc _
  simp only [urlStructureContributions, List.mem_cons, List.mem_singleton,
    List.not_mem_nil, or_false] at hc
  rcases hc with rfl | rfl | rfl | rfl <;> (simp only; omega)

/-- C26: every detector reports no details exactly when its risk is 0; the four detectors
that add up several contributions report the explanations of the contributions that
applied, in the order of the checks, joined by `"; "`, and none exactly when no
contribution applied; the three others report their one explanation or none. -/
theorem details_explain_contributions (db : ThreatDatabase) (url : ParsedUrl) :
    (∀ r, checkKnownPhishingDomains db url = .ok r →
      (r.details = none ↔ r.risk = 0) ∧
      (r.details = none ∨ r.details = some "Domain matches known phishing site")) ∧
    ExplainsContributions (checkSuspiciousPatterns url) (suspiciousPatternsContributions url) ∧
    (∀ r, checkUrlShorteners db url = .ok r →
      (r.details = none ↔ r.risk = 0) ∧
      (r.details = none ∨ r.details = some "URL shortener detected (potential redirect)")) ∧
    ExplainsContributions (checkDomainReputation url) (domainReputationContributions url) ∧
    ExplainsContributions (checkSSLStatus url) (sslStatusContributions url) ∧
    ExplainsContributions (checkUrlStructure url) (urlStructureContributions url) ∧
    ((checkTyposquatting url).details = none ↔ (checkTyposquatting url).risk = 0) ∧
    (∀ details : List String,
      joinDetails details = if details = [] then none else some ("; ".intercalate details)) := by
  refine ⟨?_, ?_, ?_, ?_, ?_, ?_, ?_, joinDetails_eq⟩
  · intro r hr
    cases hL : db.phishingDomains.items with
    | error e => simp [checkKnownPhishingDomains, hL, bind, Except.bind] at hr
    | ok L =>
      simp only [checkKnownPhishingDomains, hL, bind, Except.bind, pure, Except.pure,
        Except.ok.injEq] at hr
      subst hr
      dsimp only
      split_ifs <;> simp
  · apply explainsContributions_of_eq _ _ (suspiciousPatternsContributions_pos url)
    · rw [checkSuspiciousPatterns_eq]
    · rw [checkSuspiciousPatterns_eq]
      simp only [Nat.cast_eq_zero]
      omega
  · intro r hr
    cases hL : db.urlShorteners.items with
    | error e => simp [checkUrlShorteners, hL, bind, Except.bind] at hr
    | ok L =>
      simp only [checkUrlShorteners, hL, bind, Except.bind, pure, Except.pure,
        Except.ok.injEq] at hr
      subst hr
      dsimp only
      split_ifs <;> simp
  · apply explainsContributions_of_eq _ _ (domainReputationContributions_pos url)
    · rw [checkDomainReputation_eq]
    · rw [checkDomainReputation_eq]
      simp only [Nat.cast_eq_zero]
  · apply explainsContributions_of_eq _ _ (sslStatusContributions_pos url)
    · rw [checkSSLStatus_eq]
    · rw [checkSSLStatus_eq]
      simp only [Nat.cast_eq_zero]
  · apply explainsContributions_of_eq _ _ (urlStructureContributions_pos url)
    · rw [checkUrlStructure_eq]
    · rw [checkUrlStructure_eq]
      simp only [Nat.cast_eq_zero]
  · rcases scanLegitimate_cases (toLowerCase url.hostname) legitimateDomains with
      h0 | ⟨d, -, h80 | h85⟩
    · have := checkTyposquatting_of_scan url _ h0
      simp [this.1, this.2, joinDetails_nil]
    · have := checkTyposquatting_of_scan url _ h80
      simp [this.1, this.2, joinDetails_singleton]
    · have := checkTyposquatting_of_scan url _ h85
      simp [this.1, this.2, joinDetails_singleton]

/-! ## Splitting at dots -/

theorem split_cons_sep (sep : Char) (rest : JSString) :
    split (sep :: rest) sep = [] :: split rest sep := by
  simp [split, splitAux]

theorem split_cons_ne (sep c : Char) (rest : JSString) (h : c ≠ sep) :
    split (c :: rest) sep =
      (c :: (splitAux sep rest).1) :: (splitAux sep rest).2 := by
  simp [split, splitAux, h]

theorem split_eq_splitAux (sep : Char) (s : JSString) :
    split s sep = (splitAux sep s).1 :: (splitAux sep s).2 := rfl

theorem split_append_sep (sep : Char) (a rest : JSString) (h : sep ∉ a) :
    split (a ++ sep :: rest) sep = a :: split rest sep := by
  induction a with
  | nil => exact split_cons_sep sep rest
  | cons c a ih =>
    have hc : c ≠ sep := fun e => h (by simp [e])
    have ha : sep ∉ a := fun e => h (List.mem_cons_of_mem _ e)
    have ih' := ih ha
    rw [split_eq_splitAux] at ih'
    rw [List.cons_append, split_cons_ne sep c _ hc]
    injection ih' with h1 h2
    rw [h1, h2]

theorem split_of_not_mem (sep : Char) (a : JSString) (h : sep ∉ a) :
    split a sep = [a] := by
  induction a with
  | nil => rfl
  | cons c a ih =>
    have hc : c ≠ sep := fun e => h (by simp [e])
    have ha : sep ∉ a := fun e => h (List.mem_cons_of_mem _ e)
    have ih' := ih ha
    rw [split_eq_splitAux] at ih'
    rw [split_cons_ne sep c _ hc]
    injection ih' with h1 h2
    rw [h1, h2]

theorem split_eq_singleton (sep : Char) (s g : JSString) (h : split s sep = [g]) : s = g := by
  induction s generalizing g with
  | nil =>
    simp [split, splitAux] at h
    exact h.symm
  | cons c t ih =>
    by_cases hc : c = sep
    · subst hc
      rw [split_cons_sep] at h
      injection h with _ h2
      rw [split_eq_splitAux] at h2
      exact absurd h2 (by simp)
    · rw [split_cons_ne sep c t hc] at h
      have ht := split_eq_splitAux sep t
      rcases hsa : splitAux sep t with ⟨p, q⟩
      rw [hsa] at h ht
      injection h with h1 h2
      simp only at h1 h2 ht
      have := ih p (by rw [ht, h2])
      rw [← h1, this]

theorem split_eq_cons_cons (sep : Char) (s g g' : JSString) (gs : List JSString)
    (h : split s sep = g :: g' :: gs) :
    ∃ rest, s = g ++ sep :: rest ∧ split rest sep = g' :: gs := by
  induction s generalizing g with
  | nil => simp [split, splitAux] at h
  | cons c t ih =>
    by_cases hc : c = sep
    · subst hc
      rw [split_cons_sep] at h
      injection h with h1 h2
      exact ⟨t, by rw [← h1]; rfl, h2⟩
    · rw [split_cons_ne sep c t hc] at h
      have ht := split_eq_splitAux sep t
      rcases hsa : splitAux sep t with ⟨p, q⟩
      rw [hsa] at h ht
      injection h with h1 h2
      simp only at h1 h2 ht
      obtain ⟨rest, hr1, hr2⟩ := ih p (by rw [ht, h2])
      exact ⟨rest, by rw [← h1, hr1]; rfl, hr2⟩

theorem not_mem_of_all_isDigit (g : JSString) (h : ∀ ch ∈ g, ch.isDigit = true) : '.' ∉ g := by
  intro hmem
  have := h '.' hmem
  exact absurd this (by decide)

/-- The model of the regular expression for IPv4 literals accepts exactly the dotted
quads. -/
theorem isIpAddress_iff (hostname : JSString) :
    isIpAddress hostname = true ↔ IsDottedQuad hostname := by
  constructor
  · intro h
    simp only [isIpAddress, Bool.and_eq_true, beq_iff_eq, List.all_eq_true,
      decide_eq_true_eq] at h
    obtain ⟨hlen, hall⟩ := h
    obtain ⟨a, b, c, d, hsplit⟩ : ∃ a b c d, split hostname '.' = [a, b, c, d] := by
      match hs : split hostname '.', hlen with
      | [a, b, c, d], _ => exact ⟨a, b, c, d, rfl⟩
    obtain ⟨r1, h1, hs1⟩ := split_eq_cons_cons '.' hostname a b [c, d] hsplit
    obtain ⟨r2, h2, hs2⟩ := split_eq_cons_cons '.' r1 b c [d] hs1
    obtain ⟨r3, h3, hs3⟩ := split_eq_cons_cons '.' r2 c d [] hs2
    have h4 := split_eq_singleton '.' r3 d hs3
    refine ⟨a, b, c, d, by rw [h1, h2, h3, h4], ?_⟩
    intro g hg
    have := hall g (by rw [hsplit]; exact hg)
    exact ⟨this.1.1, this.1.2, this.2⟩
  · rintro ⟨a, b, c, d, rfl, hall⟩
    have ha := hall a (by simp)
    have hb := hall b (by simp)
    have hc := hall c (by simp)
    have hd := hall d (by simp)
    have hsplit : split (a ++ '.' :: (b ++ '.' :: (c ++ '.' :: d))) '.' = [a, b, c, d] := by
      rw [split_append_sep _ _ _ (not_mem_of_all_isDigit a ha.2.2),
        split_append_sep _ _ _ (not_mem_of_all_isDigit b hb.2.2),
        split_append_sep _ _ _ (not_mem_of_all_isDigit c hc.2.2),
        split_of_not_mem _ _ (not_mem_of_all_isDigit d hd.2.2)]
    simp only [isIpAddress, hsplit, Bool.and_eq_true, beq_iff_eq, List.all_eq_true,
      decide_eq_true_eq]
    refine ⟨rfl, ?_⟩
    intro g hg
    have := hall g hg
    exact ⟨⟨this.1, this.2.1⟩, this.2.2⟩

/-! ## The sum of `checkSuspiciousPatterns` -/

theorem includes_iff_isInfix (s sub : JSString) : includes s sub = true ↔ sub <:+: s := by
  rw [includes_iff]
  constructor
  · rintro ⟨p, t, h⟩; exact ⟨p, t, h.symm⟩
  · rintro ⟨p, t, h⟩; exact ⟨p, t, h.symm⟩

theorem endsWith_iff_isSuffix (s suffix : JSString) : endsWith s suffix = true ↔ suffix <:+ s := by
  unfold endsWith
  exact List.isSuffixOf_iff_suffix

theorem appliedRisk_cons (c : Contribution) (cs : List Contribution) :
    appliedRisk (c :: cs) = (if c.applies = true then c.risk else 0) + appliedRisk cs := by
  cases h : c.applies <;> simp [appliedRisk, List.filter_cons, h]

theorem appliedRisk_nil : appliedRisk [] = 0 := rfl

theorem filter_length_mul (l : List String) (p : String → Bool) (q : String → Prop)
    [DecidablePred q] (hpq : ∀ k, p k = true ↔ q k) :
    (l.filter p).length * 15 = (l.map (fun k => if q k then 15 else 0)).sum := by
  induction l with
  | nil => rfl
  | cons k l ih =>
    by_cases hk : q k
    · have hp : p k = true := (hpq k).mpr hk
      simp only [List.filter_cons, hp, if_true, List.length_cons, List.map_cons, List.sum_cons,
        hk, ← ih]
      omega
    · have hp : p k = false := by
        rw [Bool.eq_false_iff]
        exact fun h => hk ((hpq k).mp h)
      simp only [List.filter_cons, hp, Bool.false_eq_true, if_false, List.map_cons,
        List.sum_cons, hk, ← ih]
      omega

theorem appliedRisk_suspiciousPatterns (url : ParsedUrl) :
    appliedRisk (suspiciousPatternsContributions url) = suspiciousPatternsSum url := by
  have e2 : (decide (((split (toLowerCase url.hostname) '.').length : Int) - 2 > 3) = true) ↔
      3 + 2 < (split (toLowerCase url.hostname) '.').length := by
    rw [decide_eq_true_eq]
    omega
  have e3 : ([".tk", ".ml", ".cf", ".ga", ".pw", ".cc"].any
      (fun tld => endsWith (toLowerCase url.hostname) tld.toList) = true) ↔
      ∃ tld ∈ [".tk", ".ml", ".cf", ".ga", ".pw", ".cc"],
        tld.toList <:+ toLowerCase url.hostname := by
    rw [List.any_eq_true]
    constructor
    · rintro ⟨x, hx, h⟩; exact ⟨x, hx, (endsWith_iff_isSuffix _ _).mp h⟩
    · rintro ⟨x, hx, h⟩; exact ⟨x, hx, (endsWith_iff_isSuffix _ _).mpr h⟩
  have e6 : (if decide ((suspiciousKeywords.filter
        (fun keyword => includes (toLowerCase url.href) keyword.toList)).length > 0) = true
      then (suspiciousKeywords.filter
        (fun keyword => includes (toLowerCase url.href) keyword.toList)).length * 15 else 0) =
      (suspiciousKeywords.map
        (fun keyword => if keyword.toList <:+: toLowerCase url.href then 15 else 0)).sum := by
    rw [← filter_length_mul suspiciousKeywords
      (fun keyword => includes (toLowerCase url.href) keyword.toList)
      (fun keyword => keyword.toList <:+: toLowerCase url.href)
      (fun k => includes_iff_isInfix _ _)]
    split_ifs with h
    · rfl
    · simp only [decide_eq_true_eq] at h
      omega
  have e7 : ((includes url.pathname "signin".toList || includes url.pathname "login".toList) &&
      (includes url.search "redirect".toList || includes url.search "return".toList)) = true ↔
      ("signin".toList <:+: url.pathname ∨ "login".toList <:+: url.pathname) ∧
      ("redirect".toList <:+: url.search ∨ "return".toList <:+: url.search) := by
    simp only [Bool.and_eq_true, Bool.or_eq_true, includes_iff_isInfix]
  simp only [suspiciousPatternsContributions, suspiciousPatternsSum, appliedRisk_cons,
    appliedRisk_nil, Nat.add_zero, e6]
  simp only [e2, e3, e7, decide_eq_true_eq, gt_iff_lt, Nat.add_assoc]

/-- C23: `checkSuspiciousPatterns` returns `min(100, S)`, the clamp applied once to the sum
`S` of: 80 for a dotted quad as lower-cased hostname, 40 for more than three subdomains,
60 for one of the six top-level domains, 30 for a hostname longer than 50, 50 for more than
three hyphens, 15 for each of the nine keywords occurring in the lower-cased URL, and 40
for a sign-in path with a redirect query. -/
theorem checkSuspiciousPatterns_formula (url : ParsedUrl) :
    (checkSuspiciousPatterns url).risk = ((min 100 (suspiciousPatternsSum url) : ℕ) : ℚ) ∧
    (isIpAddress (toLowerCase url.hostname) = true ↔ IsDottedQuad (toLowerCase url.hostname)) ∧
    suspiciousKeywords.length = 9 := by
  refine ⟨?_, isIpAddress_iff _, rfl⟩
  rw [checkSuspiciousPatterns_eq, appliedRisk_suspiciousPatterns, min_comm]

end PhishingDetector
